import Mathlib

/-!
Verification of the osd-dump-tools core: binary capture decoding, frame-sequence
reconciliation, and the rasterization/masking engine.

Definitions are a shallow embedding of the Python sources under `src/osd/`
(`const.py`, `frame.py`, `config.py`, `render.py`).  The decoder and sequencer
(format detection, DJI/WS record reading, duplicate discarding, leading-garbage
trimming, `next_idx` linking) are described by the specification and consumed by
`render.py` (via `Frame.next_idx`), but the module implementing them is not
present under `src/` (the checked-in `__main__.py` is an older revision without
them); those definitions are modelled from the spec and marked as such.
-/

namespace OsdTools

/-- Constant from src/osd/const.py: SD_TILE_WIDTH = 12 * 3. -/
def SD_TILE_WIDTH : Nat := 12 * 3

/-- Constant from src/osd/const.py: SD_TILE_HEIGHT = 18 * 3. -/
def SD_TILE_HEIGHT : Nat := 18 * 3

/-- Constant from src/osd/const.py: HD_TILE_WIDTH = 12 * 2. -/
def HD_TILE_WIDTH : Nat := 12 * 2

/-- Constant from src/osd/const.py: HD_TILE_HEIGHT = 18 * 2. -/
def HD_TILE_HEIGHT : Nat := 18 * 2

/-- Constant from src/osd/const.py: OSD_TYPE_DJI = 1. -/
def OSD_TYPE_DJI : Nat := 1

/-- Constant from src/osd/const.py: OSD_TYPE_WS = 2. -/
def OSD_TYPE_WS : Nat := 2

/-- Constant from src/osd/const.py: FW_UNKNOWN = 0. -/
def FW_UNKNOWN : Nat := 0

/-- Constant from src/osd/const.py: FW_INAV = 1. -/
def FW_INAV : Nat := 1

/-- Constant from src/osd/const.py: FW_BETAFL = 2. -/
def FW_BETAFL : Nat := 2

/-- Constant from src/osd/const.py: FW_ARDU = 3. -/
def FW_ARDU : Nat := 3

/-- Firmware-specific telemetry character codes and field lengths.  Shape of
the read-only classes `ArduParams` / `InavParams` in src/osd/const.py and
src/osd/render.py. -/
structure FwParams where
  LAT_CHAR_CODE : Nat
  LON_CHAR_CODE : Nat
  ALT_CHAR_CODE : Nat
  HOME_CHAR_CODE : Nat
  ALT_LEN : Nat
  GPS_LEN : Nat
  HOME_LEN : Nat
deriving DecidableEq, Repr

/-- Values of class ArduParams in src/osd/render.py (lines 15-24). -/
def ArduParams : FwParams :=
  { LAT_CHAR_CODE := 167, LON_CHAR_CODE := 166, ALT_CHAR_CODE := 177,
    HOME_CHAR_CODE := 191, ALT_LEN := 4, GPS_LEN := 12, HOME_LEN := 6 }

/-- Values of class InavParams in src/osd/render.py (lines 26-35). -/
def InavParams : FwParams :=
  { LAT_CHAR_CODE := 3, LON_CHAR_CODE := 4, ALT_CHAR_CODE := 118,
    HOME_CHAR_CODE := 16, ALT_LEN := 4, GPS_LEN := 9, HOME_LEN := 5 }

/-- Data class Frame from src/osd/frame.py: `idx`, `next_idx`, `size`, `data`.
Tile codes are modelled as a list of naturals (the decoder produces unsigned
16-bit values). -/
structure Frame where
  idx : Nat
  next_idx : Nat
  size : Nat
  data : List Nat
deriving DecidableEq, Repr

/-- Class ExcludeArea from src/osd/config.py: four corner coordinates.  The
fields are integers (the CLI default region is `-1, -1, 0, 0`). -/
structure ExcludeArea where
  x1 : Int
  y1 : Int
  x2 : Int
  y2 : Int
deriving DecidableEq, Repr

/-- Method ExcludeArea.is_excluded from src/osd/config.py (lines 26-27):
`self.x1 <= x < self.x2 and self.y1 <= y < self.y2`. -/
def ExcludeArea.is_excluded (a : ExcludeArea) (x y : Int) : Bool :=
  a.x1 ≤ x && x < a.x2 && (a.y1 ≤ y && y < a.y2)

/-- Method MultiExcludedAreas.is_excluded from src/osd/config.py: true when any
held region excludes the point. -/
def MultiExcludedAreas.is_excluded (areas : List ExcludeArea) (x y : Int) : Bool :=
  areas.any (fun a => a.is_excluded x y)

/-- Runtime options read by src/osd/render.py.  The fields `hd`, `wide`,
`fakehd`, `nolinks`, `testrun`, `hide_gps`, `hide_alt` and `exclude_area` come
from class Config in src/osd/config.py; `hide_dist`, `verbatim` and `ardu` are
additionally read by render.py (`cfg.hide_dist`, `cfg.verbatim`, `cfg.ardu`)
and are modelled as further boolean options. -/
structure Config where
  hd : Bool := false
  wide : Bool := false
  fakehd : Bool := false
  nolinks : Bool := false
  testrun : Bool := false
  hide_gps : Bool := false
  hide_alt : Bool := false
  hide_dist : Bool := false
  verbatim : Bool := false
  ardu : Bool := false
  exclude_area : List ExcludeArea := []
deriving DecidableEq, Repr

/-- Constant INTERNAL_W_H_DJI from src/osd/render.py (line 38). -/
def INTERNAL_W_H_DJI : Nat × Nat := (60, 22)

/-- Constant INTERNAL_W_H_WS from src/osd/render.py (line 39). -/
def INTERNAL_W_H_WS : Nat × Nat := (53, 20)

/-- Function `_get_display_dims` from src/osd/render.py (lines 42-49): fake-HD
draws 60 by 22, HD draws 50 by 18, otherwise 30 by 15 (the `osd_type` argument
is ignored by the source). -/
def get_display_dims (cfg : Config) (osdType : Nat) : Nat × Nat :=
  if cfg.fakehd then (60, 22)
  else if cfg.hd then (50, 18)
  else (30, 15)

/-- DJI tile-code index of grid cell (x, y), from src/osd/render.py line 90:
`frame.data[y + x * internal_height]` with the DJI internal height 22. -/
def djiCharIndex (x y : Nat) : Nat := y + x * (INTERNAL_W_H_DJI).2

/-- WS tile-code index of grid cell (x, y), from src/osd/render.py line 96:
`frame.data[x + y * internal_width]` with the WS internal width 53. -/
def wsCharIndex (x y : Nat) : Nat := x + y * (INTERNAL_W_H_WS).1

/-- Tile code looked up by the DJI branch of `draw_frame` for cell (x, y);
`none` models a Python IndexError (read past the end of `frame.data`). -/
def djiCharAt (f : Frame) (x y : Nat) : Option Nat := f.data[djiCharIndex x y]?

/-- Tile code looked up by the WS branch of `draw_frame` for cell (x, y). -/
def wsCharAt (f : Frame) (x y : Nat) : Option Nat := f.data[wsCharIndex x y]?

/-- The `char_reader` selected by `draw_frame` (src/osd/render.py lines 88-96):
column-major for DJI, row-major otherwise. -/
def charAt (osdType : Nat) (f : Frame) (x y : Nat) : Option Nat :=
  if osdType = OSD_TYPE_DJI then djiCharAt f x y else wsCharAt f x y

/-- Internal grid dimensions selected by `draw_frame` (src/osd/render.py
lines 88-96). -/
def internalDims (osdType : Nat) : Nat × Nat :=
  if osdType = OSD_TYPE_DJI then INTERNAL_W_H_DJI else INTERNAL_W_H_WS

/-- Display grid dimensions selected by `draw_frame`: DJI uses
`_get_display_dims`, WS displays its full internal grid (src/osd/render.py
lines 88-96). -/
def displayDims (cfg : Config) (osdType : Nat) : Nat × Nat :=
  if osdType = OSD_TYPE_DJI then get_display_dims cfg osdType else INTERNAL_W_H_WS

/-- Tile width chosen in `draw_frame` (src/osd/render.py line 98). -/
def tileWidth (cfg : Config) : Nat :=
  if cfg.hd || cfg.fakehd then HD_TILE_WIDTH else SD_TILE_WIDTH

/-- Tile height chosen in `draw_frame` (src/osd/render.py line 99). -/
def tileHeight (cfg : Config) : Nat :=
  if cfg.hd || cfg.fakehd then HD_TILE_HEIGHT else SD_TILE_HEIGHT

/-- Pixel size of the canvas composed by `draw_frame` (src/osd/render.py
lines 101-107): display dimensions times tile dimensions. -/
def canvasSize (cfg : Config) (osdType : Nat) : Nat × Nat :=
  ((displayDims cfg osdType).1 * tileWidth cfg,
   (displayDims cfg osdType).2 * tileHeight cfg)

/-- Resampling filters of PIL.Image used by the source. -/
inductive ResampleFilter where
  | nearest
  | bilinear
  | bicubic
  | lanczos
deriving DecidableEq, Repr

/-- Output resolution chosen at the end of `draw_frame` (src/osd/render.py
lines 151-156). -/
def outputSize (cfg : Config) (osdType : Nat) : Nat × Nat :=
  if osdType ≠ OSD_TYPE_DJI then (1920, 1080)
  else if cfg.fakehd || cfg.hd || cfg.wide then (1280, 720)
  else (960, 720)

/-- Resampling filter used by the final resize in `draw_frame`
(src/osd/render.py line 158): `Image.Resampling.LANCZOS`. -/
def resizeFilter : ResampleFilter := ResampleFilter.lanczos

/-- Font number of the masking tile (src/osd/render.py lines 113-115):
`ord(' ')` = 32 normally, `ord('X')` = 88 in test-run mode. -/
def maskingFontNo (cfg : Config) : Nat := if cfg.testrun then 88 else 32

/-- Tile code actually drawn at cell (x, y) by the main loop of `draw_frame`
(src/osd/render.py lines 119-125): the looked-up code, or the masking font
number when the cell falls in a static exclusion region. -/
def cellTileCode (cfg : Config) (osdType : Nat) (f : Frame) (x y : Nat) : Option Nat :=
  (charAt osdType f x y).map (fun char =>
    if MultiExcludedAreas.is_excluded cfg.exclude_area (x : Int) (y : Int) then
      maskingFontNo cfg
    else char)

/-- Data class HiddenItemsCache from src/osd/render.py (lines 52-57): the
process-wide last-known positions of the four telemetry fields. -/
structure HiddenItemsCache where
  gps_lat : Option (Nat × Nat) := none
  gps_lon : Option (Nat × Nat) := none
  alt : Option (Nat × Nat) := none
  dist : Option (Nat × Nat) := none
deriving DecidableEq, Repr

/-- The local sighting variables of `draw_frame` (src/osd/render.py
lines 109-111).  The source keeps only `gps_lat`, `gps_lon` and `alt`; a
home-distance sighting writes the local variable `alt` (line 141). -/
structure ScanLocals where
  gps_lat : Option (Nat × Nat) := none
  gps_lon : Option (Nat × Nat) := none
  alt : Option (Nat × Nat) := none
deriving DecidableEq, Repr

/-- One cell of the marker-detection logic inside the main loop of
`draw_frame` (src/osd/render.py lines 127-142), updating the module-level
cache and the local sighting variables. -/
def scanStep (cfg : Config) (ex : FwParams) (st : HiddenItemsCache × ScanLocals)
    (x y char : Nat) : HiddenItemsCache × ScanLocals :=
  let st1 :=
    if cfg.hide_gps then
      if char = ex.LAT_CHAR_CODE then
        ({ st.1 with gps_lat := some (x, y) }, { st.2 with gps_lat := some (x, y) })
      else if char = ex.LON_CHAR_CODE then
        ({ st.1 with gps_lon := some (x, y) }, { st.2 with gps_lon := some (x, y) })
      else st
    else st
  let st2 :=
    if cfg.hide_alt && decide (char = ex.ALT_CHAR_CODE) then
      ({ st1.1 with alt := some (x, y) }, { st1.2 with alt := some (x, y) })
    else st1
  if cfg.hide_dist && decide (char = ex.HOME_CHAR_CODE) then
    ({ st2.1 with dist := some (x, y) }, { st2.2 with alt := some (x, y) })
  else st2

/-- Grid cells in the order scanned by the main loop of `draw_frame`
(src/osd/render.py lines 119-120): y outer, x inner. -/
def cellsInScanOrder (iw ih : Nat) : List (Nat × Nat) :=
  (List.range ih).flatMap (fun y => (List.range iw).map (fun x => (x, y)))

/-- Cells scanned by `draw_frame` for the given OSD type. -/
def scanCells (osdType : Nat) : List (Nat × Nat) :=
  cellsInScanOrder (internalDims osdType).1 (internalDims osdType).2

/-- The marker-detection pass of `draw_frame` over a list of cells, reading
each cell's tile code through the format's `char_reader`; `none` models a
Python IndexError aborting the rasterization. -/
def scanFold (cfg : Config) (ex : FwParams) (osdType : Nat) (f : Frame)
    (cells : List (Nat × Nat)) (st : HiddenItemsCache × ScanLocals) :
    Option (HiddenItemsCache × ScanLocals) :=
  cells.foldlM
    (fun st p => (charAt osdType f p.1 p.2).map (fun c => scanStep cfg ex st p.1 p.2 c))
    st

/-- State effect of `draw_frame` on the hidden-items cache (src/osd/render.py
lines 87-149): the updated cache together with the flag
`gps_lat or gps_lon or alt` that gates the call to `hide_items`. -/
def drawFrameScan (cfg : Config) (ex : FwParams) (osdType : Nat) (f : Frame)
    (cache : HiddenItemsCache) : Option (HiddenItemsCache × Bool) :=
  (scanFold cfg ex osdType f (scanCells osdType) (cache, {})).map
    (fun st => (st.1, st.2.gps_lat.isSome || st.2.gps_lon.isSome || st.2.alt.isSome))

/-- Cells pasted over by a rightward masking run of `hide_items`
(src/osd/render.py lines 62-66): `len + 1` tiles starting at the cached
position and extending right. -/
def runMaskedRight (pos : Option (Nat × Nat)) (len : Nat) (cx cy : Int) : Bool :=
  match pos with
  | none => false
  | some (px, py) => cy = (py : Int) && ((px : Int) ≤ cx && cx ≤ (px : Int) + (len : Int))

/-- Cells pasted over by the leftward altitude masking run of `hide_items`
(src/osd/render.py lines 74-78). -/
def runMaskedLeft (pos : Option (Nat × Nat)) (len : Nat) (cx cy : Int) : Bool :=
  match pos with
  | none => false
  | some (px, py) => cy = (py : Int) && ((px : Int) - (len : Int) ≤ cx && cx ≤ (px : Int))

/-- Whether grid cell (cx, cy) is pasted over by `hide_items`
(src/osd/render.py lines 61-84) for the given cache state. -/
def isMaskedCell (ex : FwParams) (cache : HiddenItemsCache) (cx cy : Int) : Bool :=
  runMaskedRight cache.gps_lat ex.GPS_LEN cx cy ||
  runMaskedRight cache.gps_lon ex.GPS_LEN cx cy ||
  runMaskedLeft cache.alt ex.ALT_LEN cx cy ||
  runMaskedRight cache.dist ex.HOME_LEN cx cy

/-- Whether grid cell (cx, cy) is dynamically masked in the frame just drawn:
`hide_items` runs only when the trigger flag is set (src/osd/render.py
lines 146-149). -/
def maskedCell (ex : FwParams) (cache : HiddenItemsCache) (trig : Bool)
    (cx cy : Int) : Bool :=
  trig && isMaskedCell ex cache cx cy

/-- Cache evolution over a run of frames rendered in order: for each frame, the
cache after its scan and its `hide_items` trigger flag. -/
def runFramesMask (cfg : Config) (ex : FwParams) (osdType : Nat) :
    List Frame → HiddenItemsCache → Option (List (HiddenItemsCache × Bool))
  | [], _ => some []
  | f :: fs, cache =>
    (drawFrameScan cfg ex osdType f cache).bind
      (fun r => (runFramesMask cfg ex osdType fs r.1).map (fun l => r :: l))

/-- Contents of an emitted file: a rendered frame image (determined by the
frame it was drawn from) or a symbolic link to the file of another index. -/
inductive FileContent where
  | image (frameIdx : Nat)
  | link (target : Nat)
deriving DecidableEq, Repr

/-- Errors raised during file emission; `fileExists` models the
FileExistsError raised by `os.symlink` when the destination exists. -/
inductive EmitError where
  | fileExists
deriving DecidableEq, Repr

/-- The output directory, as a map from the decimal frame-index key of a file
name to its content. -/
def FS : Type := Nat → Option FileContent

/-- Writing (or overwriting) the file at a key, as `Image.save` does. -/
def fsSave (fs : FS) (k : Nat) (c : FileContent) : FS :=
  fun n => if n = k then some c else fs n

/-- The empty output directory. -/
def emptyFS : FS := fun _ => none

/-- Gap indices `range(frame.idx + 1, next_frame_idx)` filled by
`render_single_frame` (src/osd/render.py line 181). -/
def gapKeys (f : Frame) : List Nat := List.range' (f.idx + 1) (f.next_idx - (f.idx + 1))

/-- One iteration of the gap-fill loop of `render_single_frame`
(src/osd/render.py lines 182-190): skip when the file exists and `verbatim`
is set; save a copy under `nolinks`; otherwise create a symlink, which fails
if the destination already exists. -/
def emitGapFile (cfg : Config) (f : Frame) (fs : FS) (j : Nat) : Except EmitError FS :=
  if (fs j).isSome && cfg.verbatim then .ok fs
  else if cfg.nolinks then .ok (fsSave fs j (.image f.idx))
  else if (fs j).isSome then .error .fileExists
  else .ok (fsSave fs j (.link f.idx))

/-- The gap-fill loop of `render_single_frame` (src/osd/render.py
lines 181-190) over a list of gap keys, aborting on the first error as the
raised FileExistsError does. -/
def emitGaps (cfg : Config) (f : Frame) : List Nat → FS → Except EmitError FS
  | [], fs => .ok fs
  | j :: rest, fs =>
    match emitGapFile cfg f fs j with
    | .error e => .error e
    | .ok fs1 => emitGaps cfg f rest fs1

/-- File-system effect of `render_single_frame` (src/osd/render.py
lines 162-190): save the frame's image under its own index, then fill the gap
up to `next_idx` (`next_idx = 0` marks the last frame: no gap fill). -/
def render_single_frame (cfg : Config) (f : Frame) (fs : FS) : Except EmitError FS :=
  let fs1 := fsSave fs f.idx (.image f.idx)
  if f.next_idx ≠ 0 then emitGaps cfg f (gapKeys f) fs1
  else .ok fs1

/-- Running the emitter twice in a row over the same frame and directory, the
scenario of the idempotence property. -/
def renderTwice (cfg : Config) (f : Frame) (fs : FS) : Except EmitError FS :=
  match render_single_frame cfg f fs with
  | .ok fs1 => render_single_frame cfg f fs1
  | .error e => .error e

/-! ### Decoder and sequencer

The following definitions are modelled from the spec (sections 4.1-4.4, 6 and
7): the module of this repository implementing them is not under `src/` (the
checked-in `__main__.py` is an older revision that lacks format detection,
duplicate discarding, garbage trimming and `next_idx` linking, while
`src/osd/frame.py` declares the linked record and `src/osd/render.py` consumes
it). -/

/-- Errors of the decoding stage (spec section 7): unrecognized magic prefix,
broken leading-garbage trim, and fatal truncated reads. -/
inductive DecodeError where
  | formatError
  | structuralError
  | ioError
deriving DecidableEq, Repr

/-- A raw decoded record before `next_idx` linking: logical index, tile count
and tile codes. -/
structure RawFrame where
  idx : Nat
  size : Nat
  data : List Nat
deriving DecidableEq, Repr

/-- Modelled from the spec: little-endian 4-byte unsigned read (spec
section 6). -/
def readU32 : List Nat → Option (Nat × List Nat)
  | b0 :: b1 :: b2 :: b3 :: rest =>
    some (b0 + b1 * 256 + b2 * 65536 + b3 * 16777216, rest)
  | _ => none

/-- Modelled from the spec: a run of `n` little-endian 2-byte tile codes (spec
section 6). -/
def readU16List : Nat → List Nat → Option (List Nat × List Nat)
  | 0, bs => some ([], bs)
  | n + 1, b0 :: b1 :: rest =>
    (readU16List n rest).map (fun r => ((b0 + b1 * 256) :: r.1, r.2))
  | _ + 1, [] => none
  | _ + 1, [_] => none

/-- ASCII bytes of the 4-byte prefix MSPO. -/
def MAGIC_MSPO : List Nat := [77, 83, 80, 79]

/-- ASCII bytes of the 4-byte prefix INAV. -/
def MAGIC_INAV : List Nat := [73, 78, 65, 86]

/-- ASCII bytes of the 4-byte prefix BTFL. -/
def MAGIC_BTFL : List Nat := [66, 84, 70, 76]

/-- ASCII bytes of the 4-byte prefix ARDU. -/
def MAGIC_ARDU : List Nat := [65, 82, 68, 85]

/-- Modelled from the spec: format detection (spec section 4.1).  Reads a
4-byte prefix and classifies the capture; any other prefix is a fatal
`FormatError`. -/
def detect_system (bytes : List Nat) : Except DecodeError (Nat × Nat) :=
  let m := bytes.take 4
  if m = MAGIC_MSPO then .ok (OSD_TYPE_DJI, FW_UNKNOWN)
  else if m = MAGIC_INAV then .ok (OSD_TYPE_WS, FW_INAV)
  else if m = MAGIC_BTFL then .ok (OSD_TYPE_WS, FW_BETAFL)
  else if m = MAGIC_ARDU then .ok (OSD_TYPE_WS, FW_ARDU)
  else .error .formatError

/-- ASCII bytes of the 7-byte DJI file magic MSPOSD followed by NUL. -/
def DJI_MAGIC : List Nat := [77, 83, 80, 79, 83, 68, 0]

/-- Modelled from the spec: the fixed 18-byte DJI file header (7-byte magic,
2-byte version, four 1-byte fields, two 2-byte offsets, 1-byte font variant;
spec sections 4.2 and 6), consumed once.  A truncated header is a fatal read
error. -/
def djiConsumeHeader (bytes : List Nat) : Except DecodeError (List Nat) :=
  if bytes.length < 18 then .error .ioError
  else if bytes.take 7 ≠ DJI_MAGIC then .error .formatError
  else .ok (bytes.drop 18)

/-- Modelled from the spec: the fixed 40-byte WS file header (4-byte magic plus
36 uninterpreted metadata bytes; spec sections 4.3 and 6). -/
def wsConsumeHeader (bytes : List Nat) : Except DecodeError (List Nat) :=
  if bytes.length < 40 then .error .ioError else .ok (bytes.drop 40)

/-- Modelled from the spec: one DJI record read (spec section 4.2): an 8-byte
frame header (4-byte index, 4-byte size), then `size` 2-byte tile codes.
`ok none` is the normal stop at end of file; a short read mid-record is fatal. -/
def djiParseRecord (bytes : List Nat) : Except DecodeError (Option (RawFrame × List Nat)) :=
  if bytes.isEmpty then .ok none
  else
    match readU32 bytes with
    | none => .error .ioError
    | some (idx, rest) =>
      match readU32 rest with
      | none => .error .ioError
      | some (size, rest) =>
        match readU16List size rest with
        | none => .error .ioError
        | some (tiles, rest) => .ok (some (⟨idx, size, tiles⟩, rest))

/-- Modelled from the spec: the WS logical index derived from a millisecond
timestamp at a fixed 60 fps interval, `floor(timestamp_ms / (1000 / 60))`
(spec section 4.3), expressed over the rationals as `ts * 60 / 1000`. -/
def wsFrameIndex (timestampMs : Nat) : Nat := timestampMs * 60 / 1000

/-- Modelled from the spec: one WS record read (spec section 4.3): a 4-byte
timestamp followed by exactly 1060 2-byte tile codes. -/
def wsParseRecord (bytes : List Nat) : Except DecodeError (Option (RawFrame × List Nat)) :=
  if bytes.isEmpty then .ok none
  else
    match readU32 bytes with
    | none => .error .ioError
    | some (ts, rest) =>
      match readU16List 1060 rest with
      | none => .error .ioError
      | some (tiles, rest) => .ok (some (⟨wsFrameIndex ts, 1060, tiles⟩, rest))

/-- Modelled from the spec: the record-reading loop with duplicate discarding
(spec sections 4.2 and 4.3): records are appended in file order, but a record
whose index equals the previous (retained) record's index is discarded with a
non-fatal warning.  Records accumulate reversed in `acc`; the fuel argument
bounds the recursion (callers pass more fuel than bytes, so it never runs
out). -/
def readLoopDedup (parse : List Nat → Except DecodeError (Option (RawFrame × List Nat))) :
    Nat → List Nat → List RawFrame → Except DecodeError (List RawFrame)
  | 0, _, acc => .ok acc.reverse
  | fuel + 1, bytes, acc =>
    match parse bytes with
    | .error e => .error e
    | .ok none => .ok acc.reverse
    | .ok (some (r, rest)) =>
      match acc with
      | prev :: _ =>
        if r.idx = prev.idx then readLoopDedup parse fuel rest acc
        else readLoopDedup parse fuel rest (r :: acc)
      | [] => readLoopDedup parse fuel rest (r :: acc)

/-- Modelled from the spec: the same reading loop without duplicate
discarding, used to state that discarding only ever removes records (the
retained records are a subsequence of the raw file order). -/
def readLoopRaw (parse : List Nat → Except DecodeError (Option (RawFrame × List Nat))) :
    Nat → List Nat → List RawFrame → Except DecodeError (List RawFrame)
  | 0, _, acc => .ok acc.reverse
  | fuel + 1, bytes, acc =>
    match parse bytes with
    | .error e => .error e
    | .ok none => .ok acc.reverse
    | .ok (some (r, rest)) => readLoopRaw parse fuel rest (r :: acc)

/-- Helper of `findStartPos`: scans adjacent pairs, returning the absolute
position of the second element of the first strictly increasing pair. -/
def findStartAux : List Nat → Nat → Option Nat
  | a :: b :: rest, i => if a < b then some (i + 1) else findStartAux (b :: rest) (i + 1)
  | [_], _ => none
  | [], _ => none

/-- Modelled from the spec: locate the first position in the decoded index
sequence where the index strictly increases from its predecessor (spec
section 4.2); `none` when no such position exists. -/
def findStartPos (l : List Nat) : Option Nat := findStartAux l 0

/-- Modelled from the spec: the fixed leading-garbage threshold of the DJI
trim heuristic (spec section 4.2). -/
def TRIM_THRESHOLD : Nat := 20

/-- Modelled from the spec: the DJI leading-garbage trim (spec section 4.2):
drop every record before the first strictly increasing index position; if that
position's original array offset exceeds the threshold, fail with
`StructuralError`.  The spec leaves the behaviour undefined when no such
position exists; the model then keeps the list unchanged. -/
def trimRecords (recs : List RawFrame) : Except DecodeError (List RawFrame) :=
  match findStartPos (recs.map RawFrame.idx) with
  | none => .ok recs
  | some q =>
    if TRIM_THRESHOLD < q then .error .structuralError else .ok (recs.drop q)

/-- Modelled from the spec: the linking pass of the sequencer (spec
section 4.4): each record's `next_idx` is the following record's `idx`; the
last record's `next_idx` is left unset (0). -/
def linkFrames : List RawFrame → List Frame
  | [] => []
  | [r] => [⟨r.idx, 0, r.size, r.data⟩]
  | r :: s :: rest => ⟨r.idx, s.idx, r.size, r.data⟩ :: linkFrames (s :: rest)

/-- Modelled from the spec: the deduplicated DJI record list read from a
capture (header consumed, then the reading loop with duplicate discarding). -/
def djiReadRecords (bytes : List Nat) : Except DecodeError (List RawFrame) :=
  match djiConsumeHeader bytes with
  | .error e => .error e
  | .ok body => readLoopDedup djiParseRecord (body.length + 1) body []

/-- Modelled from the spec: the raw (not deduplicated) DJI record list. -/
def djiRawRecords (bytes : List Nat) : Except DecodeError (List RawFrame) :=
  match djiConsumeHeader bytes with
  | .error e => .error e
  | .ok body => readLoopRaw djiParseRecord (body.length + 1) body []

/-- Modelled from the spec: the full DJI decode pipeline: read and
deduplicate, trim leading garbage, link `next_idx`. -/
def djiPipeline (bytes : List Nat) : Except DecodeError (List Frame) :=
  match djiReadRecords bytes with
  | .error e => .error e
  | .ok recs =>
    match trimRecords recs with
    | .error e => .error e
    | .ok kept => .ok (linkFrames kept)

/-- Modelled from the spec: the deduplicated WS record list. -/
def wsReadRecords (bytes : List Nat) : Except DecodeError (List RawFrame) :=
  match wsConsumeHeader bytes with
  | .error e => .error e
  | .ok body => readLoopDedup wsParseRecord (body.length + 1) body []

/-- Modelled from the spec: the WS decode pipeline: read and deduplicate, then
link (no leading-garbage trim for this family, spec section 4.3). -/
def wsPipeline (bytes : List Nat) : Except DecodeError (List Frame) :=
  match wsReadRecords bytes with
  | .error e => .error e
  | .ok recs => .ok (linkFrames recs)

/-- Modelled from the spec: decoding a capture file: detect the format from
the 4-byte prefix, then run the family's pipeline; the result carries the
detected OSD type and firmware variant. -/
def read_osd_frames (bytes : List Nat) : Except DecodeError (Nat × Nat × List Frame) :=
  match detect_system bytes with
  | .error e => .error e
  | .ok (t, fw) =>
    if t = OSD_TYPE_DJI then
      match djiPipeline bytes with
      | .error e => .error e
      | .ok frames => .ok (t, fw, frames)
    else
      match wsPipeline bytes with
      | .error e => .error e
      | .ok frames => .ok (t, fw, frames)

/-! ### Specification vocabulary and concrete inputs used by the theorems -/

instance {e a : Type} [DecidableEq e] [DecidableEq a] : DecidableEq (Except e a) := fun x y =>
  match x, y with
  | .error u, .error v =>
    if h : u = v then .isTrue (by rw [h]) else .isFalse (by intro hc; cases hc; exact h rfl)
  | .ok u, .ok v =>
    if h : u = v then .isTrue (by rw [h]) else .isFalse (by intro hc; cases hc; exact h rfl)
  | .error _, .ok _ => .isFalse (by intro hc; cases hc)
  | .ok _, .error _ => .isFalse (by intro hc; cases hc)

/-- Adjacent-pair test used to characterise the trim heuristic: true when the
index at position `j` strictly increases over its predecessor. -/
def increaseAt (l : List Nat) (j : Nat) : Bool :=
  match l[j - 1]?, l[j]? with
  | some a, some b => decide (a < b)
  | _, _ => false

/-- Position `q` is the first position of `l` whose index strictly increases
over its predecessor. -/
def IsFirstIncrease (l : List Nat) (q : Nat) : Prop :=
  0 < q ∧ increaseAt l q = true ∧ ∀ j, j < q → 0 < j → increaseAt l j = false

instance (l : List Nat) (q : Nat) : Decidable (IsFirstIncrease l q) := by
  unfold IsFirstIncrease; infer_instance

/-- Character codes that trigger no marker sighting in `draw_frame`'s scan
under the given options. -/
def noMarker (cfg : Config) (ex : FwParams) (c : Nat) : Prop :=
  (cfg.hide_gps = true → c ≠ ex.LAT_CHAR_CODE ∧ c ≠ ex.LON_CHAR_CODE) ∧
  (cfg.hide_alt = true → c ≠ ex.ALT_CHAR_CODE) ∧
  (cfg.hide_dist = true → c ≠ ex.HOME_CHAR_CODE)

/-- Cache-growth order: every field position present in `a` is still present
in `b` (the cache is never cleared, only overwritten). -/
def cacheMono (a b : HiddenItemsCache) : Prop :=
  (a.gps_lat.isSome = true → b.gps_lat.isSome = true) ∧
  (a.gps_lon.isSome = true → b.gps_lon.isSome = true) ∧
  (a.alt.isSome = true → b.alt.isSome = true) ∧
  (a.dist.isSome = true → b.dist.isSome = true)

/-- A well-formed 18-byte DJI file header used by concrete captures. -/
def djiHeaderBytes : List Nat := DJI_MAGIC ++ [1, 0, 30, 16, 12, 18, 0, 0, 0, 0, 0]

/-- An 8-byte DJI frame header carrying index `i` (below 256) and tile count 0. -/
def djiRec0 (i : Nat) : List Nat := [i, 0, 0, 0, 0, 0, 0, 0]

/-- Concrete DJI capture whose records carry indices 3, 3, 7. -/
def c1Bytes : List Nat := djiHeaderBytes ++ djiRec0 3 ++ djiRec0 3 ++ djiRec0 7

/-- Concrete DJI capture whose records carry indices 7, 7, 3, 9. -/
def c2Bytes : List Nat :=
  djiHeaderBytes ++ djiRec0 7 ++ djiRec0 7 ++ djiRec0 3 ++ djiRec0 9

/-- Concrete DJI capture whose records carry indices 0, 10, 9, 10: after the
trim at the first increase, the reconciled indices 10, 9, 10 are not strictly
increasing. -/
def c4Bytes : List Nat :=
  djiHeaderBytes ++ djiRec0 0 ++ djiRec0 10 ++ djiRec0 9 ++ djiRec0 10

/-- Options for the dynamic-masking scenarios: GPS hiding enabled. -/
def cfgC6 : Config := { hide_gps := true }

/-- WS frame whose cell (5, 0) carries the INAV latitude marker code 3. -/
def frameC6A : Frame := ⟨1, 0, 1060, (List.replicate 1060 0).set 5 3⟩

/-- WS frame with no marker glyph anywhere. -/
def frameC6B : Frame := ⟨2, 0, 1060, List.replicate 1060 0⟩

/-- Cache state after sighting the latitude marker at cell (5, 0). -/
def cacheC6 : HiddenItemsCache := { gps_lat := some (5, 0) }

/-- Default options: symlink mode, no verbatim reporting. -/
def cfgC7 : Config := {}

/-- Options with verbatim reporting enabled. -/
def cfgC7v : Config := { verbatim := true }

/-- A linked frame at index 0 whose successor has index 2 (one gap file). -/
def frameC7 : Frame := ⟨0, 2, 0, []⟩

/-- Directory contents produced by emitting `frameC7` into an empty
directory: its own image at key 0 and a link at gap key 1. -/
def fsC7 : FS := fun n =>
  if n = 1 then some (FileContent.link 0)
  else if n = 0 then some (FileContent.image 0) else none

/-- The scenario exclusion rectangle (1,1)-(3,3). -/
def areaC9 : ExcludeArea := ⟨1, 1, 3, 3⟩

/-- Options holding the scenario exclusion rectangle. -/
def cfgC9 : Config := { exclude_area := [⟨1, 1, 3, 3⟩] }

/-- DJI frame with 1320 tiles, all carrying code 7. -/
def frameC9 : Frame := ⟨0, 0, 1320, List.replicate 1320 7⟩

/-! ### Helper lemmas: reading loops, trim heuristic, linking pass -/

lemma readLoopDedup_chain
    (parse : List Nat → Except DecodeError (Option (RawFrame × List Nat))) :
    ∀ (fuel : Nat) (bytes : List Nat) (acc : List RawFrame),
      List.Chain' (fun a b => a ≠ b) (acc.reverse.map RawFrame.idx) →
      ∀ out, readLoopDedup parse fuel bytes acc = .ok out →
        List.Chain' (fun a b => a ≠ b) (out.map RawFrame.idx) := by
  intro fuel
  induction fuel with
  | zero =>
    intro bytes acc hacc out hout
    simp only [readLoopDedup] at hout
    cases hout
    exact hacc
  | succ n ih =>
    intro bytes acc hacc out hout
    simp only [readLoopDedup] at hout
    cases hp : parse bytes with
    | error e => rw [hp] at hout; cases hout
    | ok o =>
      rw [hp] at hout
      cases o with
      | none => cases hout; exact hacc
      | some rr =>
        obtain ⟨r, rest⟩ := rr
        cases acc with
        | nil =>
          refine ih rest [r] ?_ out hout
          simp
        | cons prev tail =>
          simp only [] at hout
          by_cases hidx : r.idx = prev.idx
          · rw [if_pos hidx] at hout
            exact ih rest (prev :: tail) hacc out hout
          · rw [if_neg hidx] at hout
            refine ih rest (r :: prev :: tail) ?_ out hout
            have hrw : ((r :: prev :: tail).reverse.map RawFrame.idx) =
                (prev :: tail).reverse.map RawFrame.idx ++ [r.idx] := by
              simp
            rw [hrw]
            refine List.chain'_append.mpr ⟨hacc, List.chain'_singleton _, ?_⟩
            intro x hx y hy
            simp only [List.head?_cons, Option.mem_def, Option.some_inj] at hy
            have hlast : ((prev :: tail).reverse.map RawFrame.idx).getLast? =
                some prev.idx := by
              simp
            rw [hlast] at hx
            simp only [Option.mem_def, Option.some_inj] at hx
            subst hx
            subst hy
            exact fun h => hidx h.symm

lemma readLoop_sublist
    (parse : List Nat → Except DecodeError (Option (RawFrame × List Nat))) :
    ∀ (fuel : Nat) (bytes : List Nat) (acc1 acc2 : List RawFrame),
      acc1.Sublist acc2 →
      ∀ out1, readLoopDedup parse fuel bytes acc1 = .ok out1 →
        ∃ out2, readLoopRaw parse fuel bytes acc2 = .ok out2 ∧ out1.Sublist out2 := by
  intro fuel
  induction fuel with
  | zero =>
    intro bytes acc1 acc2 hsub out1 hout
    simp only [readLoopDedup] at hout
    cases hout
    exact ⟨acc2.reverse, rfl, hsub.reverse⟩
  | succ n ih =>
    intro bytes acc1 acc2 hsub out1 hout
    simp only [readLoopDedup] at hout
    simp only [readLoopRaw]
    cases hp : parse bytes with
    | error e => rw [hp] at hout; cases hout
    | ok o =>
      rw [hp] at hout
      cases o with
      | none =>
        cases hout
        exact ⟨acc2.reverse, rfl, hsub.reverse⟩
      | some rr =>
        obtain ⟨r, rest⟩ := rr
        cases acc1 with
        | nil =>
          exact ih rest [r] (r :: acc2) (List.cons_sublist_cons.mpr (List.nil_sublist _)) out1 hout
        | cons prev tail =>
          simp only [] at hout
          by_cases hidx : r.idx = prev.idx
          · rw [if_pos hidx] at hout
            exact ih rest (prev :: tail) (r :: acc2) (hsub.cons r) out1 hout
          · rw [if_neg hidx] at hout
            exact ih rest (r :: prev :: tail) (r :: acc2)
              (List.cons_sublist_cons.mpr hsub) out1 hout

lemma findStartAux_succ :
    ∀ (l : List Nat) (i : Nat), findStartAux l (i + 1) = (findStartAux l i).map (· + 1) := by
  intro l
  induction l with
  | nil => intro i; rfl
  | cons a t ih =>
    intro i
    cases t with
    | nil => rfl
    | cons b rest =>
      simp only [findStartAux]
      by_cases hab : a < b
      · rw [if_pos hab, if_pos hab]; rfl
      · rw [if_neg hab, if_neg hab]
        exact ih (i + 1)

lemma increaseAt_cons (a : Nat) (t : List Nat) (j : Nat) (hj : 1 ≤ j) :
    increaseAt (a :: t) (j + 1) = increaseAt t j := by
  obtain ⟨k, rfl⟩ := Nat.exists_eq_add_of_le hj
  simp only [increaseAt]
  have h1 : (1 + k + 1) - 1 = k + 1 := by omega
  have h2 : (1 + k) - 1 = k := by omega
  rw [h1, h2]
  have h3 : (1 + k + 1) = (k + 1) + 1 := by omega
  have h4 : (1 + k) = k + 1 := by omega
  rw [h3, h4]
  rw [List.getElem?_cons_succ, List.getElem?_cons_succ]

lemma increaseAt_one (a b : Nat) (rest : List Nat) :
    increaseAt (a :: b :: rest) 1 = decide (a < b) := by
  simp [increaseAt]

lemma findStartPos_spec :
    ∀ (l : List Nat) (q : Nat), findStartPos l = some q ↔ IsFirstIncrease l q := by
  intro l
  induction l with
  | nil =>
    intro q
    constructor
    · intro h; cases h
    · rintro ⟨hq, hinc, -⟩
      simp [increaseAt] at hinc
  | cons a t ih =>
    intro q
    cases t with
    | nil =>
      constructor
      · intro h; cases h
      · rintro ⟨hq, hinc, -⟩
        simp only [increaseAt] at hinc
        have : ([a] : List Nat)[q]? = none := by
          apply List.getElem?_eq_none
          simp; omega
        rw [this] at hinc
        rcases hh : ([a] : List Nat)[q - 1]? with _ | v <;> rw [hh] at hinc <;> cases hinc
    | cons b rest =>
      have hfsp : findStartPos (a :: b :: rest) =
          if a < b then some 1 else (findStartPos (b :: rest)).map (· + 1) := by
        simp only [findStartPos, findStartAux]
        by_cases hab : a < b
        · rw [if_pos hab, if_pos hab]
        · rw [if_neg hab, if_neg hab]
          exact findStartAux_succ (b :: rest) 0
      by_cases hab : a < b
      · rw [hfsp, if_pos hab]
        constructor
        · intro h
          have hq1 : q = 1 := by cases h; rfl
          subst hq1
          refine ⟨Nat.one_pos, ?_, ?_⟩
          · rw [increaseAt_one]; exact decide_eq_true hab
          · intro j hj hj0; omega
        · rintro ⟨hq, hinc, hmin⟩
          by_cases hq1 : q = 1
          · subst hq1; rfl
          · exfalso
            have h1q : 1 < q := by omega
            have := hmin 1 h1q Nat.one_pos
            rw [increaseAt_one] at this
            simp [hab] at this
      · rw [hfsp, if_neg hab]
        constructor
        · intro h
          rw [Option.map_eq_some'] at h
          obtain ⟨q', hq', rfl⟩ := h
          obtain ⟨hq'0, hinc', hmin'⟩ := (ih q').mp hq'
          refine ⟨by omega, ?_, ?_⟩
          · rw [increaseAt_cons a (b :: rest) q' hq'0]; exact hinc'
          · intro j hj hj0
            rcases j with _ | k
            · omega
            · rcases k with _ | m
              · rw [increaseAt_one]; simp [hab]
              · rw [increaseAt_cons a (b :: rest) (m + 1) (by omega)]
                exact hmin' (m + 1) (by omega) (by omega)
        · rintro ⟨hq, hinc, hmin⟩
          rw [Option.map_eq_some']
          rcases q with _ | q'
          · omega
          · rcases q' with _ | q''
            · exfalso
              rw [increaseAt_one] at hinc
              simp [hab] at hinc
            · refine ⟨q'' + 1, ?_, rfl⟩
              refine (ih (q'' + 1)).mpr ⟨by omega, ?_, ?_⟩
              · rw [increaseAt_cons a (b :: rest) (q'' + 1) (by omega)] at hinc
                exact hinc
              · intro j hj hj0
                have := hmin (j + 1) (by omega) (by omega)
                rw [increaseAt_cons a (b :: rest) j hj0] at this
                exact this

lemma linkFrames_map_idx :
    ∀ l : List RawFrame, (linkFrames l).map Frame.idx = l.map RawFrame.idx := by
  intro l
  induction l with
  | nil => rfl
  | cons r t ih =>
    cases t with
    | nil => rfl
    | cons s rest =>
      simp only [linkFrames, List.map_cons] at ih ⊢
      rw [ih]

lemma linkFrames_head_idx :
    ∀ (s : RawFrame) (rest : List RawFrame) (f : Frame),
      (linkFrames (s :: rest))[0]? = some f → f.idx = s.idx := by
  intro s rest f h
  cases rest with
  | nil =>
    have he : linkFrames [s] = [⟨s.idx, 0, s.size, s.data⟩] := rfl
    rw [he, List.getElem?_cons_zero, Option.some_inj] at h
    rw [← h]
  | cons u rest' =>
    have he : linkFrames (s :: u :: rest') =
        ⟨s.idx, u.idx, s.size, s.data⟩ :: linkFrames (u :: rest') := rfl
    rw [he, List.getElem?_cons_zero, Option.some_inj] at h
    rw [← h]

lemma linkFrames_next :
    ∀ (l : List RawFrame) (i : Nat) (f g : Frame),
      (linkFrames l)[i]? = some f → (linkFrames l)[i + 1]? = some g →
      f.next_idx = g.idx := by
  intro l
  induction l with
  | nil => intro i f g hf _; cases hf
  | cons r t ih =>
    intro i f g hf hg
    cases t with
    | nil =>
      rcases i with _ | k
      · cases hg
      · cases hf
    | cons s rest =>
      rcases i with _ | k
      · simp only [linkFrames, List.getElem?_cons_zero, Option.some_inj] at hf
        simp only [linkFrames, List.getElem?_cons_succ] at hg
        rw [← hf]
        exact (linkFrames_head_idx s rest g hg).symm
      · simp only [linkFrames, List.getElem?_cons_succ] at hf hg
        exact ih k f g hf hg

lemma linkFrames_last :
    ∀ (l : List RawFrame) (f : Frame),
      (linkFrames l).getLast? = some f → f.next_idx = 0 := by
  intro l
  induction l with
  | nil => intro f h; cases h
  | cons r t ih =>
    intro f h
    cases t with
    | nil => cases h; rfl
    | cons s rest =>
      cases rest with
      | nil => cases h; rfl
      | cons u rest' =>
        have hexp : linkFrames (r :: s :: u :: rest') =
            ⟨r.idx, s.idx, r.size, r.data⟩ :: linkFrames (s :: u :: rest') := rfl
        rw [hexp] at h
        have hne : linkFrames (s :: u :: rest') =
            ⟨s.idx, u.idx, s.size, s.data⟩ :: linkFrames (u :: rest') := rfl
        rw [hne] at h
        rw [List.getLast?_cons_cons] at h
        rw [← hne] at h
        exact ih f h

lemma chain'_ne_drop :
    ∀ (n : Nat) (l : List Nat), List.Chain' (fun a b => a ≠ b) l →
      List.Chain' (fun a b => a ≠ b) (l.drop n) := by
  intro n
  induction n with
  | zero => intro l h; exact h
  | succ k ih =>
    intro l h
    cases l with
    | nil => simp
    | cons a t =>
      rw [List.drop_succ_cons]
      exact ih t h.tail

lemma djiConsumeHeader_detect (bytes body : List Nat)
    (h : djiConsumeHeader bytes = .ok body) :
    detect_system bytes = .ok (OSD_TYPE_DJI, FW_UNKNOWN) := by
  simp only [djiConsumeHeader] at h
  by_cases h1 : bytes.length < 18
  · rw [if_pos h1] at h; simp at h
  · rw [if_neg h1] at h
    by_cases h2 : bytes.take 7 = DJI_MAGIC
    · have htake : bytes.take 4 = MAGIC_MSPO := by
        have hmin : (4 : Nat) ⊓ 7 = 4 := by decide
        have hsplit : bytes.take 4 = (bytes.take 7).take 4 := by
          rw [List.take_take, hmin]
        rw [hsplit, h2]
        decide
      simp [detect_system, htake]
    · rw [if_pos h2] at h; simp at h

lemma djiReadRecords_chain (bytes : List Nat) (recs : List RawFrame)
    (h : djiReadRecords bytes = .ok recs) :
    List.Chain' (fun a b => a ≠ b) (recs.map RawFrame.idx) := by
  simp only [djiReadRecords] at h
  cases hh : djiConsumeHeader bytes with
  | error e => rw [hh] at h; simp at h
  | ok body =>
    rw [hh] at h
    exact readLoopDedup_chain djiParseRecord (body.length + 1) body []
      (by simp) recs h

lemma wsReadRecords_chain (bytes : List Nat) (recs : List RawFrame)
    (h : wsReadRecords bytes = .ok recs) :
    List.Chain' (fun a b => a ≠ b) (recs.map RawFrame.idx) := by
  simp only [wsReadRecords] at h
  cases hh : wsConsumeHeader bytes with
  | error e => rw [hh] at h; simp at h
  | ok body =>
    rw [hh] at h
    exact readLoopDedup_chain wsParseRecord (body.length + 1) body []
      (by simp) recs h

lemma trimRecords_chain (recs kept : List RawFrame)
    (h : trimRecords recs = .ok kept)
    (hc : List.Chain' (fun a b => a ≠ b) (recs.map RawFrame.idx)) :
    List.Chain' (fun a b => a ≠ b) (kept.map RawFrame.idx) := by
  simp only [trimRecords] at h
  cases hf : findStartPos (recs.map RawFrame.idx) with
  | none => rw [hf] at h; simp only [Except.ok.injEq] at h; rw [← h]; exact hc
  | some q =>
    rw [hf] at h
    simp only [] at h
    by_cases hq : TRIM_THRESHOLD < q
    · rw [if_pos hq] at h; simp at h
    · rw [if_neg hq] at h
      simp only [Except.ok.injEq] at h
      rw [← h, List.map_drop]
      exact chain'_ne_drop q _ hc

lemma djiPipeline_shape (bytes : List Nat) (frames : List Frame)
    (h : djiPipeline bytes = .ok frames) :
    ∃ kept : List RawFrame, frames = linkFrames kept ∧
      List.Chain' (fun a b => a ≠ b) (kept.map RawFrame.idx) := by
  simp only [djiPipeline] at h
  cases hr : djiReadRecords bytes with
  | error e => rw [hr] at h; simp at h
  | ok recs =>
    rw [hr] at h
    simp only [] at h
    cases ht : trimRecords recs with
    | error e => rw [ht] at h; simp at h
    | ok kept =>
      rw [ht] at h
      simp only [Except.ok.injEq] at h
      exact ⟨kept, h.symm,
        trimRecords_chain recs kept ht (djiReadRecords_chain bytes recs hr)⟩

lemma wsPipeline_shape (bytes : List Nat) (frames : List Frame)
    (h : wsPipeline bytes = .ok frames) :
    ∃ kept : List RawFrame, frames = linkFrames kept ∧
      List.Chain' (fun a b => a ≠ b) (kept.map RawFrame.idx) := by
  simp only [wsPipeline] at h
  cases hr : wsReadRecords bytes with
  | error e => rw [hr] at h; simp at h
  | ok recs =>
    rw [hr] at h
    simp only [] at h
    simp only [Except.ok.injEq] at h
    exact ⟨recs, h.symm, wsReadRecords_chain bytes recs hr⟩

lemma read_osd_frames_shape (bytes : List Nat) (t fw : Nat) (frames : List Frame)
    (h : read_osd_frames bytes = .ok (t, fw, frames)) :
    ∃ kept : List RawFrame, frames = linkFrames kept ∧
      List.Chain' (fun a b => a ≠ b) (kept.map RawFrame.idx) := by
  simp only [read_osd_frames] at h
  cases hd : detect_system bytes with
  | error e => rw [hd] at h; simp at h
  | ok tf =>
    rw [hd] at h
    obtain ⟨t', fw'⟩ := tf
    simp only [] at h
    by_cases ht : t' = OSD_TYPE_DJI
    · rw [if_pos ht] at h
      cases hp : djiPipeline bytes with
      | error e => rw [hp] at h; simp at h
      | ok fr =>
        rw [hp] at h
        simp only [Except.ok.injEq, Prod.mk.injEq] at h
        obtain ⟨-, -, hfr⟩ := h
        rw [← hfr]
        exact djiPipeline_shape bytes fr hp
    · rw [if_neg ht] at h
      cases hp : wsPipeline bytes with
      | error e => rw [hp] at h; simp at h
      | ok fr =>
        rw [hp] at h
        simp only [Except.ok.injEq, Prod.mk.injEq] at h
        obtain ⟨-, -, hfr⟩ := h
        rw [← hfr]
        exact wsPipeline_shape bytes fr hp

/-! ### Claim theorems -/

/-- C1: for every decoded DJI capture, a newly read record whose index equals
the immediately preceding (retained) record's index is discarded and the
earlier record kept, so the decoder's output never contains two consecutive
records with equal index, and the retained records are a subsequence of the
records in raw file order. -/
theorem dji_decoder_discards_adjacent_duplicates :
    ∀ (bytes : List Nat) (recs : List RawFrame),
      djiReadRecords bytes = .ok recs →
      List.Chain' (fun a b => a ≠ b) (recs.map RawFrame.idx) ∧
      ∃ raws, djiRawRecords bytes = .ok raws ∧ recs.Sublist raws := by
  intro bytes recs h
  refine ⟨djiReadRecords_chain bytes recs h, ?_⟩
  simp only [djiReadRecords] at h
  simp only [djiRawRecords]
  cases hh : djiConsumeHeader bytes with
  | error e => rw [hh] at h; simp at h
  | ok body =>
    rw [hh] at h
    exact readLoop_sublist djiParseRecord (body.length + 1) body [] []
      (List.Sublist.refl _) recs h

/-- Witness for C1 at a concrete capture whose raw record indices are
3, 3, 7: the second record is discarded, the earlier retained. -/
theorem dji_decoder_discards_adjacent_duplicates_witness :
    List.Chain' (fun a b => a ≠ b)
      (([⟨3, 0, []⟩, ⟨7, 0, []⟩] : List RawFrame).map RawFrame.idx) ∧
    ∃ raws, djiRawRecords c1Bytes = .ok raws ∧
      ([⟨3, 0, []⟩, ⟨7, 0, []⟩] : List RawFrame).Sublist raws :=
  dji_decoder_discards_adjacent_duplicates c1Bytes
    [⟨3, 0, []⟩, ⟨7, 0, []⟩] (by decide)

/-- C2: after decoding, the DJI pipeline locates the first position where the
index strictly increases over its predecessor and drops every record before
it; when that position exceeds the fixed threshold 20 the decode fails with
`StructuralError` instead of returning frames. -/
theorem dji_trim_at_first_increase_with_threshold :
    ∀ (bytes : List Nat) (recs : List RawFrame) (q : Nat),
      djiReadRecords bytes = .ok recs →
      IsFirstIncrease (recs.map RawFrame.idx) q →
      (TRIM_THRESHOLD < q →
        read_osd_frames bytes = .error .structuralError) ∧
      (q ≤ TRIM_THRESHOLD →
        read_osd_frames bytes =
          .ok (OSD_TYPE_DJI, FW_UNKNOWN, linkFrames (recs.drop q))) := by
  intro bytes recs q hread hifi
  have hdet : detect_system bytes = .ok (OSD_TYPE_DJI, FW_UNKNOWN) := by
    have h' := hread
    simp only [djiReadRecords] at h'
    cases hh : djiConsumeHeader bytes with
    | error e => rw [hh] at h'; simp at h'
    | ok body => exact djiConsumeHeader_detect bytes body hh
  have hfsp : findStartPos (recs.map RawFrame.idx) = some q :=
    (findStartPos_spec _ q).mpr hifi
  constructor
  · intro hq
    have htr : trimRecords recs = .error .structuralError := by
      simp only [trimRecords]
      rw [hfsp]
      simp only []
      rw [if_pos hq]
    have hpipe : djiPipeline bytes = .error .structuralError := by
      simp only [djiPipeline]
      rw [hread]
      simp only []
      rw [htr]
    simp only [read_osd_frames]
    rw [hdet]
    simp only []
    simp [hpipe]
  · intro hq
    have htr : trimRecords recs = .ok (recs.drop q) := by
      simp only [trimRecords]
      rw [hfsp]
      simp only []
      rw [if_neg (by omega : ¬ TRIM_THRESHOLD < q)]
    have hpipe : djiPipeline bytes = .ok (linkFrames (recs.drop q)) := by
      simp only [djiPipeline]
      rw [hread]
      simp only []
      rw [htr]
    simp only [read_osd_frames]
    rw [hdet]
    simp only []
    simp [hpipe]

/-- Witness for C2 at a concrete capture with record indices 7, 7, 3, 9:
after discarding the duplicate, the first strict increase of 7, 3, 9 is at
position 2, which is within the threshold, so the two leading records are
dropped. -/
theorem dji_trim_at_first_increase_with_threshold_witness :
    djiReadRecords c2Bytes = .ok [⟨7, 0, []⟩, ⟨3, 0, []⟩, ⟨9, 0, []⟩] ∧
    read_osd_frames c2Bytes =
      .ok (OSD_TYPE_DJI, FW_UNKNOWN,
        linkFrames (([⟨7, 0, []⟩, ⟨3, 0, []⟩, ⟨9, 0, []⟩] : List RawFrame).drop 2)) :=
  ⟨by decide,
    (dji_trim_at_first_increase_with_threshold c2Bytes
      [⟨7, 0, []⟩, ⟨3, 0, []⟩, ⟨9, 0, []⟩] 2 (by decide) (by decide)).2 (by decide)⟩

/-- C3: format detection reads the 4-byte prefix and maps MSPO, INAV, BTFL and
ARDU to their capture family and firmware variant; any other prefix fails the
whole decode with `FormatError` before any frame is decoded. -/
theorem format_detection_magic_mapping :
    (∀ bytes : List Nat, bytes.take 4 = MAGIC_MSPO →
      detect_system bytes = .ok (OSD_TYPE_DJI, FW_UNKNOWN)) ∧
    (∀ bytes : List Nat, bytes.take 4 = MAGIC_INAV →
      detect_system bytes = .ok (OSD_TYPE_WS, FW_INAV)) ∧
    (∀ bytes : List Nat, bytes.take 4 = MAGIC_BTFL →
      detect_system bytes = .ok (OSD_TYPE_WS, FW_BETAFL)) ∧
    (∀ bytes : List Nat, bytes.take 4 = MAGIC_ARDU →
      detect_system bytes = .ok (OSD_TYPE_WS, FW_ARDU)) ∧
    (∀ bytes : List Nat,
      bytes.take 4 ≠ MAGIC_MSPO → bytes.take 4 ≠ MAGIC_INAV →
      bytes.take 4 ≠ MAGIC_BTFL → bytes.take 4 ≠ MAGIC_ARDU →
      detect_system bytes = .error .formatError ∧
      read_osd_frames bytes = .error .formatError) := by
  refine ⟨?_, ?_, ?_, ?_, ?_⟩
  · intro bytes h; simp only [detect_system, h]; decide
  · intro bytes h; simp only [detect_system, h]; decide
  · intro bytes h; simp only [detect_system, h]; decide
  · intro bytes h; simp only [detect_system, h]; decide
  · intro bytes h1 h2 h3 h4
    have hdet : detect_system bytes = .error .formatError := by
      simp [detect_system, h1, h2, h3, h4]
    refine ⟨hdet, ?_⟩
    simp only [read_osd_frames]
    rw [hdet]

/-- Witness for C3 at concrete prefixes: an INAV capture prefix detects as the
WS family with the INav variant, and an unrecognized prefix aborts the decode
with `FormatError`. -/
theorem format_detection_magic_mapping_witness :
    detect_system [73, 78, 65, 86, 0, 0] = .ok (OSD_TYPE_WS, FW_INAV) ∧
    read_osd_frames [1, 2, 3, 4, 5] = .error .formatError :=
  ⟨format_detection_magic_mapping.2.1 [73, 78, 65, 86, 0, 0] (by decide),
    (format_detection_magic_mapping.2.2.2.2 [1, 2, 3, 4, 5]
      (by decide) (by decide) (by decide) (by decide)).2⟩

/-- Counterexample to C4 as stated: the capture `c4Bytes` (record indices
0, 10, 9, 10) decodes and reconciles successfully, yet the reconciled index
sequence 10, 9, 10 is not strictly increasing: duplicate discarding only
compares adjacent records and the trim only drops a leading prefix, so
out-of-order indices after the trim point survive. -/
theorem reconciled_sequence_not_strictly_increasing_counterexample :
    read_osd_frames c4Bytes =
      .ok (OSD_TYPE_DJI, FW_UNKNOWN,
        [⟨10, 9, 0, []⟩, ⟨9, 10, 0, []⟩, ⟨10, 0, 0, []⟩]) ∧
    ¬ List.Chain' (fun a b => a < b)
        (([⟨10, 9, 0, []⟩, ⟨9, 10, 0, []⟩, ⟨10, 0, 0, []⟩] : List Frame).map
          Frame.idx) ∧
    ¬ List.Pairwise (fun a b => a < b)
        (([⟨10, 9, 0, []⟩, ⟨9, 10, 0, []⟩, ⟨10, 0, 0, []⟩] : List Frame).map
          Frame.idx) := by
  refine ⟨by decide, ?_, ?_⟩
  · intro hc
    simp only [List.map_cons, List.map_nil, List.chain'_cons] at hc
    omega
  · intro hc
    simp only [List.map_cons, List.map_nil, List.pairwise_cons] at hc
    have := hc.1 9 (by simp)
    omega

/-- C4 (amended): in every reconciled sequence, consecutive records have
distinct indices, each record's `next_idx` equals the following record's
`idx`, and the last record's `next_idx` is unset (0); the index sequence need
not be strictly increasing when out-of-order indices survive after the trim
point. -/
theorem reconciled_sequence_linking :
    ∀ (bytes : List Nat) (t fw : Nat) (frames : List Frame),
      read_osd_frames bytes = .ok (t, fw, frames) →
      List.Chain' (fun a b => a ≠ b) (frames.map Frame.idx) ∧
      (∀ i f g, frames[i]? = some f → frames[i + 1]? = some g →
        f.next_idx = g.idx) ∧
      (∀ f, frames.getLast? = some f → f.next_idx = 0) := by
  intro bytes t fw frames h
  obtain ⟨kept, rfl, hchain⟩ := read_osd_frames_shape bytes t fw frames h
  refine ⟨?_, ?_, ?_⟩
  · rw [linkFrames_map_idx]; exact hchain
  · intro i f g hf hg; exact linkFrames_next kept i f g hf hg
  · intro f hf; exact linkFrames_last kept f hf

/-- Witness for C4 (amended) at the capture `c4Bytes`. -/
theorem reconciled_sequence_linking_witness :
    List.Chain' (fun a b => a ≠ b)
      (([⟨10, 9, 0, []⟩, ⟨9, 10, 0, []⟩, ⟨10, 0, 0, []⟩] : List Frame).map
        Frame.idx) ∧
    (∀ i f g,
      ([⟨10, 9, 0, []⟩, ⟨9, 10, 0, []⟩, ⟨10, 0, 0, []⟩] : List Frame)[i]? = some f →
      ([⟨10, 9, 0, []⟩, ⟨9, 10, 0, []⟩, ⟨10, 0, 0, []⟩] : List Frame)[i + 1]? = some g →
      f.next_idx = g.idx) ∧
    (∀ f,
      ([⟨10, 9, 0, []⟩, ⟨9, 10, 0, []⟩, ⟨10, 0, 0, []⟩] : List Frame).getLast? = some f →
      f.next_idx = 0) :=
  reconciled_sequence_linking c4Bytes OSD_TYPE_DJI FW_UNKNOWN
    [⟨10, 9, 0, []⟩, ⟨9, 10, 0, []⟩, ⟨10, 0, 0, []⟩] (by decide)

lemma flatten_getElem_grid :
    ∀ (ls : List (List Nat)) (k x y : Nat), (∀ c ∈ ls, c.length = k) → y < k →
      (ls.flatten)[y + x * k]? = ls[x]?.bind (fun c => (c)[y]?) := by
  intro ls
  induction ls with
  | nil =>
    intro k x y _ _
    simp
  | cons c cs ih =>
    intro k x y hlen hy
    have hc : c.length = k := hlen c (List.mem_cons_self c cs)
    cases x with
    | zero =>
      have hidx : y + 0 * k = y := by omega
      rw [hidx]
      have hylt : y < c.length := by omega
      rw [List.flatten_cons, List.getElem?_append_left hylt]
      simp
    | succ x' =>
      have hidx : y + (x' + 1) * k = c.length + (y + x' * k) := by
        rw [hc]; ring
      rw [List.flatten_cons, hidx]
      have hge : c.length ≤ c.length + (y + x' * k) := by omega
      rw [List.getElem?_append_right hge]
      have hsub : c.length + (y + x' * k) - c.length = y + x' * k := by omega
      rw [hsub]
      rw [ih k x' y (fun d hd => hlen d (List.mem_cons_of_mem c hd)) hy]
      simp

/-- C5: the DJI branch reads `tile_codes[y + x*22]`, which is exactly
column-major addressing of a 60-column, 22-row grid (reading cell (x, y)
returns row y of column x), while the WS branch reads `tile_codes[x + y*53]`,
exactly row-major addressing of a 53 by 20 grid; the DJI display subgrid is
60 by 22 in fake-HD mode, 50 by 18 in HD mode and 30 by 15 otherwise, and the
WS display grid equals its internal grid. -/
theorem rasterizer_grid_addressing :
    (∀ (cols : List (List Nat)) (i n s x y : Nat),
      cols.length = 60 → (∀ c ∈ cols, c.length = 22) → y < 22 →
      djiCharAt ⟨i, n, s, cols.flatten⟩ x y = cols[x]?.bind (fun c => (c)[y]?)) ∧
    (∀ (rows : List (List Nat)) (i n s x y : Nat),
      rows.length = 20 → (∀ r ∈ rows, r.length = 53) → x < 53 →
      wsCharAt ⟨i, n, s, rows.flatten⟩ x y = rows[y]?.bind (fun r => (r)[x]?)) ∧
    (∀ cfg : Config, cfg.fakehd = true →
      displayDims cfg OSD_TYPE_DJI = (60, 22)) ∧
    (∀ cfg : Config, cfg.fakehd = false → cfg.hd = true →
      displayDims cfg OSD_TYPE_DJI = (50, 18)) ∧
    (∀ cfg : Config, cfg.fakehd = false → cfg.hd = false →
      displayDims cfg OSD_TYPE_DJI = (30, 15)) ∧
    (∀ cfg : Config, displayDims cfg OSD_TYPE_WS = internalDims OSD_TYPE_WS) ∧
    internalDims OSD_TYPE_DJI = (60, 22) ∧ internalDims OSD_TYPE_WS = (53, 20) := by
  refine ⟨?_, ?_, ?_, ?_, ?_, ?_, by decide, by decide⟩
  · intro cols i n s x y _ hlen hy
    have hidx : djiCharIndex x y = y + x * 22 := rfl
    show (cols.flatten)[djiCharIndex x y]? = _
    rw [hidx]
    exact flatten_getElem_grid cols 22 x y hlen hy
  · intro rows i n s x y _ hlen hx
    have hidx : wsCharIndex x y = x + y * 53 := rfl
    show (rows.flatten)[wsCharIndex x y]? = _
    rw [hidx]
    exact flatten_getElem_grid rows 53 y x hlen hx
  · intro cfg h; simp [displayDims, get_display_dims, h, OSD_TYPE_DJI]
  · intro cfg h1 h2; simp [displayDims, get_display_dims, h1, h2, OSD_TYPE_DJI]
  · intro cfg h1 h2; simp [displayDims, get_display_dims, h1, h2, OSD_TYPE_DJI]
  · intro cfg; simp [displayDims, internalDims, OSD_TYPE_WS, OSD_TYPE_DJI]

/-- Witness for C5 at a concrete 60 by 22 column grid, a concrete 53-wide row
grid, and a fake-HD configuration. -/
theorem rasterizer_grid_addressing_witness :
    djiCharAt ⟨0, 0, 0, (List.replicate 60 (List.replicate 22 9)).flatten⟩ 2 3 =
      (List.replicate 60 (List.replicate 22 9))[2]?.bind (fun c => (c)[3]?) ∧
    wsCharAt ⟨0, 0, 0, (List.replicate 20 (List.replicate 53 4)).flatten⟩ 7 1 =
      (List.replicate 20 (List.replicate 53 4))[1]?.bind (fun r => (r)[7]?) ∧
    displayDims { fakehd := true } OSD_TYPE_DJI = (60, 22) :=
  ⟨rasterizer_grid_addressing.1 (List.replicate 60 (List.replicate 22 9)) 0 0 0 2 3
      (by decide) (by decide) (by decide),
   rasterizer_grid_addressing.2.1 (List.replicate 20 (List.replicate 53 4)) 0 0 0 7 1
      (by decide) (by decide) (by decide),
   rasterizer_grid_addressing.2.2.1 { fakehd := true } rfl⟩

lemma mem_cellsInScanOrder (iw ih : Nat) (p : Nat × Nat) :
    p ∈ cellsInScanOrder iw ih ↔ p.1 < iw ∧ p.2 < ih := by
  obtain ⟨a, b⟩ := p
  simp only [cellsInScanOrder, List.mem_flatMap, List.mem_map, List.mem_range]
  constructor
  · rintro ⟨y, hy, x, hx, hxy⟩
    cases hxy
    exact ⟨hx, hy⟩
  · rintro ⟨ha, hb⟩
    exact ⟨b, hb, a, ha, rfl⟩

lemma isSome_getElem_list {α : Type} (l : List α) (i : Nat) :
    (l[i]?).isSome = true ↔ i < l.length := by
  constructor
  · intro h
    rw [Option.isSome_iff_exists] at h
    obtain ⟨a, ha⟩ := h
    exact (List.getElem?_eq_some_iff.mp ha).1
  · intro h
    rw [List.getElem?_eq_getElem h]
    rfl

lemma scanFold_isSome :
    ∀ (cells : List (Nat × Nat)) (cfg : Config) (ex : FwParams) (ot : Nat)
      (f : Frame) (st : HiddenItemsCache × ScanLocals),
      (scanFold cfg ex ot f cells st).isSome = true ↔
      ∀ p ∈ cells, (charAt ot f p.1 p.2).isSome = true := by
  intro cells
  induction cells with
  | nil => intro cfg ex ot f st; simp [scanFold]
  | cons p cells ih =>
    intro cfg ex ot f st
    simp only [scanFold, List.foldlM_cons]
    cases hc : charAt ot f p.1 p.2 with
    | none => simp [hc]
    | some c =>
      have ih' := ih cfg ex ot f (scanStep cfg ex st p.1 p.2 c)
      simp only [scanFold] at ih'
      show (List.foldlM
          (fun st p => Option.map (fun c => scanStep cfg ex st p.1 p.2 c) (charAt ot f p.1 p.2))
          (scanStep cfg ex st p.1 p.2 c) cells).isSome = true ↔
        ∀ q ∈ p :: cells, (charAt ot f q.1 q.2).isSome = true
      rw [ih']
      simp [List.forall_mem_cons, hc]

/-- C10: for any configuration and any cache state, the DJI scan of
`draw_frame` succeeds if and only if the record carries at least
60 * 22 = 1320 tile codes: the loop reads `tile_codes[y + x*22]` for every
x below 60 and y below 22 regardless of the display mode, so a shorter record
makes a lookup fall outside the data and the rasterization fail. -/
theorem dji_rasterization_requires_1320_tiles :
    ∀ (cfg : Config) (ex : FwParams) (cache : HiddenItemsCache) (f : Frame),
      (drawFrameScan cfg ex OSD_TYPE_DJI f cache).isSome = true ↔
      1320 ≤ f.data.length := by
  intro cfg ex cache f
  rw [drawFrameScan, Option.isSome_map']
  rw [scanFold_isSome]
  have hcells : scanCells OSD_TYPE_DJI = cellsInScanOrder 60 22 := rfl
  constructor
  · intro hall
    have h59 : (charAt OSD_TYPE_DJI f 59 21).isSome = true := by
      refine hall (59, 21) ?_
      rw [hcells]
      exact (mem_cellsInScanOrder 60 22 (59, 21)).mpr ⟨by omega, by omega⟩
    have hch : charAt OSD_TYPE_DJI f 59 21 = f.data[(1319 : Nat)]? := rfl
    rw [hch, isSome_getElem_list] at h59
    omega
  · intro hlen p hp
    rw [hcells, mem_cellsInScanOrder] at hp
    obtain ⟨hp1, hp2⟩ := hp
    have hch : charAt OSD_TYPE_DJI f p.1 p.2 = f.data[p.2 + p.1 * 22]? := rfl
    rw [hch, isSome_getElem_list]
    omega

lemma scanStep_noop (cfg : Config) (ex : FwParams) (st : HiddenItemsCache × ScanLocals)
    (x y c : Nat) (h : noMarker cfg ex c) : scanStep cfg ex st x y c = st := by
  obtain ⟨h1, h2, h3⟩ := h
  simp only [scanStep]
  cases hg : cfg.hide_gps <;> cases ha : cfg.hide_alt <;> cases hd : cfg.hide_dist <;>
    simp_all

lemma scanStep_idem (cfg : Config) (ex : FwParams) (st : HiddenItemsCache × ScanLocals)
    (x y c : Nat) :
    scanStep cfg ex (scanStep cfg ex st x y c) x y c = scanStep cfg ex st x y c := by
  obtain ⟨cache, loc⟩ := st
  simp only [scanStep]
  split_ifs <;> rfl

lemma scanStep_cacheMono (cfg : Config) (ex : FwParams)
    (st : HiddenItemsCache × ScanLocals) (x y c : Nat) :
    cacheMono st.1 (scanStep cfg ex st x y c).1 := by
  obtain ⟨cache, loc⟩ := st
  simp only [scanStep, cacheMono]
  split_ifs <;> simp

lemma scanFold_single_marker (cfg : Config) (ex : FwParams) (ot : Nat) (f : Frame)
    (t : Nat × Nat) (code : Nat)
    (hrt : charAt ot f t.1 t.2 = some code) :
    ∀ (cells : List (Nat × Nat)) (st : HiddenItemsCache × ScanLocals),
      (∀ p ∈ cells, p ≠ t → ∃ c, charAt ot f p.1 p.2 = some c ∧ noMarker cfg ex c) →
      scanFold cfg ex ot f cells st =
        some (if t ∈ cells then scanStep cfg ex st t.1 t.2 code else st) := by
  intro cells
  induction cells with
  | nil =>
    intro st _
    simp [scanFold]
  | cons p cells ih =>
    intro st hro
    by_cases hpt : p = t
    · subst hpt
      have hstep : scanFold cfg ex ot f (p :: cells) st =
          scanFold cfg ex ot f cells (scanStep cfg ex st p.1 p.2 code) := by
        simp only [scanFold, List.foldlM_cons, hrt]
        rfl
      rw [hstep, ih (scanStep cfg ex st p.1 p.2 code)
        (fun q hq hqt => hro q (List.mem_cons_of_mem p hq) hqt)]
      by_cases hmem : p ∈ cells
      · rw [if_pos hmem, if_pos (List.mem_cons_self p cells), scanStep_idem]
      · rw [if_neg hmem, if_pos (List.mem_cons_self p cells)]
    · obtain ⟨c, hc, hnm⟩ := hro p (List.mem_cons_self p cells) hpt
      have hstep : scanFold cfg ex ot f (p :: cells) st =
          scanFold cfg ex ot f cells (scanStep cfg ex st p.1 p.2 c) := by
        simp only [scanFold, List.foldlM_cons, hc]
        rfl
      rw [hstep, scanStep_noop cfg ex st p.1 p.2 c hnm,
        ih st (fun q hq hqt => hro q (List.mem_cons_of_mem p hq) hqt)]
      have hiff : (t ∈ p :: cells) ↔ (t ∈ cells) := by
        rw [List.mem_cons]
        constructor
        · rintro (h | h)
          · exact absurd h.symm hpt
          · exact h
        · exact Or.inr
      have hsame : (if t ∈ p :: cells then scanStep cfg ex st t.1 t.2 code else st) =
          (if t ∈ cells then scanStep cfg ex st t.1 t.2 code else st) :=
        if_congr hiff rfl rfl
      rw [hsame]

lemma cacheMono_refl (a : HiddenItemsCache) : cacheMono a a :=
  ⟨fun h => h, fun h => h, fun h => h, fun h => h⟩

lemma cacheMono_trans {a b c : HiddenItemsCache}
    (hab : cacheMono a b) (hbc : cacheMono b c) : cacheMono a c :=
  ⟨fun h => hbc.1 (hab.1 h), fun h => hbc.2.1 (hab.2.1 h),
   fun h => hbc.2.2.1 (hab.2.2.1 h), fun h => hbc.2.2.2 (hab.2.2.2 h)⟩

lemma scanFold_cacheMono (cfg : Config) (ex : FwParams) (ot : Nat) (f : Frame) :
    ∀ (cells : List (Nat × Nat)) (st : HiddenItemsCache × ScanLocals)
      (out : HiddenItemsCache × ScanLocals),
      scanFold cfg ex ot f cells st = some out → cacheMono st.1 out.1 := by
  intro cells
  induction cells with
  | nil =>
    intro st out h
    simp only [scanFold, List.foldlM_nil, Option.pure_def, Option.some_inj] at h
    rw [← h]
    exact cacheMono_refl _
  | cons p cells ih =>
    intro st out h
    cases hc : charAt ot f p.1 p.2 with
    | none =>
      exfalso
      simp only [scanFold, List.foldlM_cons, hc] at h
      cases h
    | some c =>
      have hstep : scanFold cfg ex ot f (p :: cells) st =
          scanFold cfg ex ot f cells (scanStep cfg ex st p.1 p.2 c) := by
        simp only [scanFold, List.foldlM_cons, hc]
        rfl
      rw [hstep] at h
      exact cacheMono_trans (scanStep_cacheMono cfg ex st p.1 p.2 c)
        (ih (scanStep cfg ex st p.1 p.2 c) out h)

lemma drawFrameScan_cacheMono (cfg : Config) (ex : FwParams) (ot : Nat) (f : Frame)
    (cache : HiddenItemsCache) (out : HiddenItemsCache × Bool)
    (h : drawFrameScan cfg ex ot f cache = some out) : cacheMono cache out.1 := by
  simp only [drawFrameScan] at h
  cases hs : scanFold cfg ex ot f (scanCells ot) (cache, {}) with
  | none => rw [hs] at h; cases h
  | some st =>
    rw [hs] at h
    simp only [Option.map_some', Option.some_inj] at h
    have := scanFold_cacheMono cfg ex ot f (scanCells ot) (cache, {}) st hs
    rw [← h]
    exact this

lemma runFramesMask_entries_mono (cfg : Config) (ex : FwParams) (ot : Nat) :
    ∀ (frames : List Frame) (cache : HiddenItemsCache)
      (hist : List (HiddenItemsCache × Bool)),
      runFramesMask cfg ex ot frames cache = some hist →
      ∀ (j : Nat) (cj : HiddenItemsCache) (tj : Bool),
        hist[j]? = some (cj, tj) → cacheMono cache cj := by
  intro frames
  induction frames with
  | nil =>
    intro cache hist h j cj tj hj
    simp only [runFramesMask, Option.some_inj] at h
    rw [← h] at hj
    cases hj
  | cons f fs ih =>
    intro cache hist h j cj tj hj
    simp only [runFramesMask] at h
    cases hd : drawFrameScan cfg ex ot f cache with
    | none => rw [hd] at h; cases h
    | some r =>
      rw [hd] at h
      simp only [Option.some_bind] at h
      cases hr : runFramesMask cfg ex ot fs r.1 with
      | none => rw [hr] at h; cases h
      | some hist' =>
        rw [hr] at h
        simp only [Option.map_some', Option.some_inj] at h
        rw [← h] at hj
        have hmono1 : cacheMono cache r.1 := drawFrameScan_cacheMono cfg ex ot f cache r hd
        cases j with
        | zero =>
          rw [List.getElem?_cons_zero, Option.some_inj] at hj
          rw [hj] at hmono1
          exact hmono1
        | succ k =>
          rw [List.getElem?_cons_succ] at hj
          exact cacheMono_trans hmono1 (ih r.1 hist' hr k cj tj hj)

lemma noMarker_zero : noMarker cfgC6 InavParams 0 := by
  refine ⟨fun _ => ⟨by decide, by decide⟩, fun h => ?_, fun h => ?_⟩ <;>
    simp [cfgC6] at h

lemma charAt_frameC6A_marker : charAt OSD_TYPE_WS frameC6A 5 0 = some 3 := by
  show ((List.replicate 1060 (0 : Nat)).set 5 3)[(5 : Nat)]? = some 3
  rw [List.getElem?_set_self (by rw [List.length_replicate]; omega)]

lemma charAt_frameC6A_other :
    ∀ p ∈ scanCells OSD_TYPE_WS, p ≠ (5, 0) →
      ∃ c, charAt OSD_TYPE_WS frameC6A p.1 p.2 = some c ∧ noMarker cfgC6 InavParams c := by
  intro p hp hne
  have hb := (mem_cellsInScanOrder 53 20 p).mp hp
  obtain ⟨a, b⟩ := p
  obtain ⟨h1, h2⟩ := hb
  refine ⟨0, ?_, noMarker_zero⟩
  have hch : charAt OSD_TYPE_WS frameC6A a b =
      ((List.replicate 1060 (0 : Nat)).set 5 3)[a + b * 53]? := rfl
  rw [hch]
  have hne5 : (5 : Nat) ≠ a + b * 53 := by
    intro h5
    apply hne
    have hb0 : b = 0 := by omega
    have ha5 : a = 5 := by omega
    rw [hb0, ha5]
  rw [List.getElem?_set_ne hne5]
  exact List.getElem?_replicate_of_lt (by omega)

lemma charAt_frameC6B_all :
    ∀ p ∈ scanCells OSD_TYPE_WS, charAt OSD_TYPE_WS frameC6B p.1 p.2 = some 0 := by
  intro p hp
  have hb := (mem_cellsInScanOrder 53 20 p).mp hp
  obtain ⟨a, b⟩ := p
  obtain ⟨h1, h2⟩ := hb
  have hch : charAt OSD_TYPE_WS frameC6B a b =
      (List.replicate 1060 (0 : Nat))[a + b * 53]? := rfl
  rw [hch]
  exact List.getElem?_replicate_of_lt (by omega)

lemma mem50_ws : (5, 0) ∈ scanCells OSD_TYPE_WS :=
  (mem_cellsInScanOrder 53 20 (5, 0)).mpr ⟨by omega, by omega⟩

lemma drawFrameScan_frameC6A (cache : HiddenItemsCache) :
    drawFrameScan cfgC6 InavParams OSD_TYPE_WS frameC6A cache =
      some (⟨some (5, 0), cache.gps_lon, cache.alt, cache.dist⟩, true) := by
  simp only [drawFrameScan]
  rw [scanFold_single_marker cfgC6 InavParams OSD_TYPE_WS frameC6A (5, 0) 3
    charAt_frameC6A_marker (scanCells OSD_TYPE_WS) (cache, {}) charAt_frameC6A_other]
  rw [if_pos mem50_ws]
  rfl

lemma drawFrameScan_frameC6B (cache : HiddenItemsCache) :
    drawFrameScan cfgC6 InavParams OSD_TYPE_WS frameC6B cache = some (cache, false) := by
  simp only [drawFrameScan]
  rw [scanFold_single_marker cfgC6 InavParams OSD_TYPE_WS frameC6B (5, 0) 0
    (charAt_frameC6B_all (5, 0) mem50_ws) (scanCells OSD_TYPE_WS) (cache, {})
    (fun p hp _ => ⟨0, charAt_frameC6B_all p hp, noMarker_zero⟩)]
  rw [if_pos mem50_ws]
  rw [scanStep_noop cfgC6 InavParams (cache, {}) 5 0 0 noMarker_zero]
  rfl

lemma runFramesMask_mono_between (cfg : Config) (ex : FwParams) (ot : Nat) :
    ∀ (frames : List Frame) (cache : HiddenItemsCache)
      (hist : List (HiddenItemsCache × Bool)),
      runFramesMask cfg ex ot frames cache = some hist →
      ∀ (i j : Nat) (ci cj : HiddenItemsCache) (ti tj : Bool), i ≤ j →
        hist[i]? = some (ci, ti) → hist[j]? = some (cj, tj) → cacheMono ci cj := by
  intro frames
  induction frames with
  | nil =>
    intro cache hist h i j ci cj ti tj hij hi hj
    simp only [runFramesMask, Option.some_inj] at h
    rw [← h] at hi
    cases hi
  | cons f fs ih =>
    intro cache hist h i j ci cj ti tj hij hi hj
    simp only [runFramesMask] at h
    cases hd : drawFrameScan cfg ex ot f cache with
    | none => rw [hd] at h; cases h
    | some r =>
      rw [hd] at h
      simp only [Option.some_bind] at h
      cases hr : runFramesMask cfg ex ot fs r.1 with
      | none => rw [hr] at h; cases h
      | some hist' =>
        rw [hr] at h
        simp only [Option.map_some', Option.some_inj] at h
        rw [← h] at hi hj
        cases i with
        | zero =>
          rw [List.getElem?_cons_zero, Option.some_inj] at hi
          cases j with
          | zero =>
            rw [List.getElem?_cons_zero, Option.some_inj] at hj
            rw [hi] at hj
            cases hj
            exact cacheMono_refl ci
          | succ n =>
            rw [List.getElem?_cons_succ] at hj
            have hm := runFramesMask_entries_mono cfg ex ot fs r.1 hist' hr n cj tj hj
            rw [hi] at hm
            exact hm
        | succ m =>
          cases j with
          | zero => omega
          | succ n =>
            rw [List.getElem?_cons_succ] at hi hj
            exact ih r.1 hist' hr m n ci cj ti tj (by omega) hi hj

/-- Counterexample to C6 as stated: with GPS hiding enabled, a run of two WS
frames in which the first carries the INAV latitude marker at cell (5, 0) and
the second carries no marker at all leaves the second frame entirely unmasked
(its `hide_items` trigger is false and its masked-cell set is empty) even
though the cached sighting at (5, 0) persists: the claim's "every subsequently
rasterized frame masks the run" fails on any frame without a current-frame
marker sighting. -/
theorem masking_skipped_without_current_sighting_counterexample :
    runFramesMask cfgC6 InavParams OSD_TYPE_WS [frameC6A, frameC6B] {} =
      some [(cacheC6, true), (cacheC6, false)] ∧
    cacheC6.gps_lat = some (5, 0) ∧
    maskedCell InavParams cacheC6 false 5 0 = false ∧
    maskedCell InavParams cacheC6 true 5 0 = true := by
  have h1 : drawFrameScan cfgC6 InavParams OSD_TYPE_WS frameC6A {} =
      some (cacheC6, true) := drawFrameScan_frameC6A {}
  have hrunB : runFramesMask cfgC6 InavParams OSD_TYPE_WS [frameC6B] cacheC6 =
      some [(cacheC6, false)] := by
    show (drawFrameScan cfgC6 InavParams OSD_TYPE_WS frameC6B cacheC6).bind
        (fun r => (runFramesMask cfgC6 InavParams OSD_TYPE_WS [] r.1).map
          (fun l => r :: l)) = some [(cacheC6, false)]
    rw [drawFrameScan_frameC6B cacheC6]
    rfl
  refine ⟨?_, rfl, rfl, rfl⟩
  show (drawFrameScan cfgC6 InavParams OSD_TYPE_WS frameC6A {}).bind
      (fun r => (runFramesMask cfgC6 InavParams OSD_TYPE_WS [frameC6B] r.1).map
        (fun l => r :: l)) = some [(cacheC6, true), (cacheC6, false)]
  rw [h1, Option.some_bind, hrunB]
  rfl

lemma runMaskedRight_hit (pos : Option (Nat × Nat)) (len px py d : Nat)
    (hpos : pos = some (px, py)) (hd : d ≤ len) :
    runMaskedRight pos len ((px : Int) + (d : Int)) ((py : Nat) : Int) = true := by
  rw [hpos]
  simp only [runMaskedRight, Bool.and_eq_true, decide_eq_true_eq, true_and]
  refine ⟨by omega, by omega⟩

lemma runMaskedLeft_hit (pos : Option (Nat × Nat)) (len px py d : Nat)
    (hpos : pos = some (px, py)) (hd : d ≤ len) :
    runMaskedLeft pos len ((px : Int) - (d : Int)) ((py : Nat) : Int) = true := by
  rw [hpos]
  simp only [runMaskedLeft, Bool.and_eq_true, decide_eq_true_eq, true_and]
  refine ⟨by omega, by omega⟩

/-- C6 (amended): the telemetry position cache grows monotonically along a
run (a sighted field's cached position is never cleared, only overwritten),
and every rasterized frame whose scan sighted at least one marker (so that
`hide_items` runs) masks, for each field currently in the cache, the
firmware-specific field_length+1 run of cells anchored at the cached position
(rightward for GPS latitude/longitude and home distance, leftward for
altitude) regardless of whether that particular field's marker reappeared;
frames with no current-frame sighting mask nothing. -/
theorem telemetry_masking_monotonic_amended :
    ∀ (cfg : Config) (ex : FwParams) (osdType : Nat) (frames : List Frame)
      (cache0 : HiddenItemsCache) (hist : List (HiddenItemsCache × Bool)),
      runFramesMask cfg ex osdType frames cache0 = some hist →
      (∀ (i j : Nat) (ci cj : HiddenItemsCache) (ti tj : Bool), i ≤ j →
        hist[i]? = some (ci, ti) → hist[j]? = some (cj, tj) → cacheMono ci cj) ∧
      (∀ (j : Nat) (cj : HiddenItemsCache), hist[j]? = some (cj, true) →
        (∀ (px py d : Nat), cj.gps_lat = some (px, py) → d ≤ ex.GPS_LEN →
          maskedCell ex cj true ((px : Int) + (d : Int)) (py : Int) = true) ∧
        (∀ (px py d : Nat), cj.gps_lon = some (px, py) → d ≤ ex.GPS_LEN →
          maskedCell ex cj true ((px : Int) + (d : Int)) (py : Int) = true) ∧
        (∀ (px py d : Nat), cj.alt = some (px, py) → d ≤ ex.ALT_LEN →
          maskedCell ex cj true ((px : Int) - (d : Int)) (py : Int) = true) ∧
        (∀ (px py d : Nat), cj.dist = some (px, py) → d ≤ ex.HOME_LEN →
          maskedCell ex cj true ((px : Int) + (d : Int)) (py : Int) = true)) := by
  intro cfg ex osdType frames cache0 hist hrun
  constructor
  · exact runFramesMask_mono_between cfg ex osdType frames cache0 hist hrun
  · intro j cj _
    refine ⟨?_, ?_, ?_, ?_⟩
    · intro px py d hpos hd
      have hr := runMaskedRight_hit cj.gps_lat ex.GPS_LEN px py d hpos hd
      simp only [maskedCell, Bool.true_and, isMaskedCell, hr, Bool.true_or, Bool.or_true]
    · intro px py d hpos hd
      have hr := runMaskedRight_hit cj.gps_lon ex.GPS_LEN px py d hpos hd
      simp only [maskedCell, Bool.true_and, isMaskedCell, hr, Bool.true_or, Bool.or_true]
    · intro px py d hpos hd
      have hr := runMaskedLeft_hit cj.alt ex.ALT_LEN px py d hpos hd
      simp only [maskedCell, Bool.true_and, isMaskedCell, hr, Bool.true_or, Bool.or_true]
    · intro px py d hpos hd
      have hr := runMaskedRight_hit cj.dist ex.HOME_LEN px py d hpos hd
      simp only [maskedCell, Bool.true_and, isMaskedCell, hr, Bool.true_or, Bool.or_true]

/-- Witness for C6 (amended) at a one-frame run sighting the latitude marker
at cell (5, 0). -/
theorem telemetry_masking_monotonic_amended_witness :
    runFramesMask cfgC6 InavParams OSD_TYPE_WS [frameC6A] {} = some [(cacheC6, true)] ∧
    cacheMono cacheC6 cacheC6 ∧
    maskedCell InavParams cacheC6 true (((5 : Nat) : Int) + ((3 : Nat) : Int))
      ((0 : Nat) : Int) = true := by
  have hrun : runFramesMask cfgC6 InavParams OSD_TYPE_WS [frameC6A] {} =
      some [(cacheC6, true)] := by
    show (drawFrameScan cfgC6 InavParams OSD_TYPE_WS frameC6A {}).bind
        (fun r => (runFramesMask cfgC6 InavParams OSD_TYPE_WS [] r.1).map
          (fun l => r :: l)) = some [(cacheC6, true)]
    rw [(drawFrameScan_frameC6A {} :
      drawFrameScan cfgC6 InavParams OSD_TYPE_WS frameC6A {} = some (cacheC6, true))]
    rfl
  refine ⟨hrun, ?_, ?_⟩
  · exact (telemetry_masking_monotonic_amended cfgC6 InavParams OSD_TYPE_WS
      [frameC6A] {} [(cacheC6, true)] hrun).1 0 0 cacheC6 cacheC6 true true
      (Nat.le_refl 0) rfl rfl
  · exact ((telemetry_masking_monotonic_amended cfgC6 InavParams OSD_TYPE_WS
      [frameC6A] {} [(cacheC6, true)] hrun).2 0 cacheC6 rfl).1 5 0 3 rfl (by decide)

lemma fsSave_self (fs : FS) (k : Nat) (c : FileContent) : fsSave fs k c k = some c := by
  simp [fsSave]

lemma fsSave_other (fs : FS) (k : Nat) (c : FileContent) (n : Nat) (h : n ≠ k) :
    fsSave fs k c n = fs n := by
  simp [fsSave, h]

lemma fsSave_id (fs : FS) (k : Nat) (c : FileContent) (h : fs k = some c) :
    fsSave fs k c = fs := by
  funext n
  by_cases hn : n = k
  · rw [hn, fsSave_self, h]
  · rw [fsSave_other fs k c n hn]

lemma emitGapFile_ok (cfg : Config) (f : Frame) (fs : FS) (j : Nat) (fs2 : FS)
    (h : emitGapFile cfg f fs j = .ok fs2) :
    (∀ k, (fs k).isSome = true → (fs2 k).isSome = true) ∧
    (fs2 j).isSome = true ∧
    (∀ k, k ≠ j → fs2 k = fs k) := by
  simp only [emitGapFile] at h
  have hsave : ∀ c : FileContent, fs2 = fsSave fs j c →
      (∀ k, (fs k).isSome = true → (fs2 k).isSome = true) ∧
      (fs2 j).isSome = true ∧
      (∀ k, k ≠ j → fs2 k = fs k) := by
    intro c hc
    subst hc
    refine ⟨?_, ?_, ?_⟩
    · intro k hk
      by_cases hkj : k = j
      · rw [hkj, fsSave_self]; rfl
      · rw [fsSave_other fs j _ k hkj]; exact hk
    · rw [fsSave_self]; rfl
    · intro k hkj; exact fsSave_other fs j _ k hkj
  by_cases h1 : ((fs j).isSome && cfg.verbatim) = true
  · rw [if_pos h1] at h
    simp only [Except.ok.injEq] at h
    subst h
    refine ⟨fun k hk => hk, ?_, fun k _ => rfl⟩
    have hb : (fs j).isSome = true ∧ cfg.verbatim = true := by
      constructor
      · cases hval : (fs j).isSome
        · rw [hval, Bool.false_and] at h1; cases h1
        · rfl
      · cases hval : cfg.verbatim
        · rw [hval, Bool.and_false] at h1; cases h1
        · rfl
    exact hb.1
  · rw [if_neg h1] at h
    by_cases h2 : cfg.nolinks = true
    · rw [if_pos h2] at h
      simp only [Except.ok.injEq] at h
      exact hsave _ h.symm
    · rw [if_neg h2] at h
      by_cases h3 : ((fs j).isSome : Bool) = true
      · rw [if_pos h3] at h
        cases h
      · rw [if_neg h3] at h
        simp only [Except.ok.injEq] at h
        exact hsave _ h.symm

lemma emitGaps_ok (cfg : Config) (f : Frame) :
    ∀ (l : List Nat) (fs fs2 : FS), emitGaps cfg f l fs = .ok fs2 →
      (∀ k, (fs k).isSome = true → (fs2 k).isSome = true) ∧
      (∀ j ∈ l, (fs2 j).isSome = true) ∧
      (∀ k, k ∉ l → fs2 k = fs k) := by
  intro l
  induction l with
  | nil =>
    intro fs fs2 h
    simp only [emitGaps, Except.ok.injEq] at h
    subst h
    exact ⟨fun k hk => hk, fun j hj => absurd hj (List.not_mem_nil j), fun k _ => rfl⟩
  | cons j rest ih =>
    intro fs fs2 h
    simp only [emitGaps] at h
    cases he : emitGapFile cfg f fs j with
    | error e => rw [he] at h; cases h
    | ok fs1 =>
      rw [he] at h
      simp only [] at h
      obtain ⟨hpres1, hj1, hun1⟩ := emitGapFile_ok cfg f fs j fs1 he
      obtain ⟨hpres2, hall2, hun2⟩ := ih fs1 fs2 h
      refine ⟨fun k hk => hpres2 k (hpres1 k hk), ?_, ?_⟩
      · intro q hq
        rcases List.mem_cons.mp hq with hq | hq
        · rw [hq]; exact hpres2 j hj1
        · exact hall2 q hq
      · intro k hk
        have hkj : k ≠ j := fun hkj => hk (hkj ▸ List.mem_cons_self j rest)
        have hkrest : k ∉ rest := fun hkr => hk (List.mem_cons_of_mem j hkr)
        rw [hun2 k hkrest, hun1 k hkj]

lemma emitGaps_verbatim_skip (cfg : Config) (f : Frame) (hv : cfg.verbatim = true) :
    ∀ (l : List Nat) (fs : FS), (∀ j ∈ l, (fs j).isSome = true) →
      emitGaps cfg f l fs = .ok fs := by
  intro l
  induction l with
  | nil => intro fs _; rfl
  | cons j rest ih =>
    intro fs hall
    have hcond : ((fs j).isSome && cfg.verbatim) = true := by
      rw [hall j (List.mem_cons_self j rest), hv]
      rfl
    simp only [emitGaps, emitGapFile, if_pos hcond]
    exact ih fs (fun q hq => hall q (List.mem_cons_of_mem j hq))

lemma emitGaps_nolinks_run (cfg : Config) (f : Frame) (hv : cfg.verbatim = false)
    (hn : cfg.nolinks = true) :
    ∀ (l : List Nat) (fs : FS),
      emitGaps cfg f l fs =
        .ok (fun k => if k ∈ l then some (FileContent.image f.idx) else fs k) := by
  intro l
  induction l with
  | nil =>
    intro fs
    have hfun : (fun k => if k ∈ ([] : List Nat) then some (FileContent.image f.idx)
        else fs k) = fs := by
      funext k; simp
    rw [hfun]
    rfl
  | cons j rest ih =>
    intro fs
    have hcond : ((fs j).isSome && cfg.verbatim) = false := by
      rw [hv, Bool.and_false]
    simp only [emitGaps, emitGapFile, hcond, Bool.false_eq_true, if_false, if_pos hn]
    rw [ih (fsSave fs j (FileContent.image f.idx))]
    have hfun : (fun k => if k ∈ rest then some (FileContent.image f.idx)
        else fsSave fs j (FileContent.image f.idx) k) =
        (fun k => if k ∈ j :: rest then some (FileContent.image f.idx) else fs k) := by
      funext k
      by_cases hkr : k ∈ rest
      · rw [if_pos hkr, if_pos (List.mem_cons_of_mem j hkr)]
      · rw [if_neg hkr]
        by_cases hkj : k = j
        · rw [hkj, fsSave_self, if_pos (List.mem_cons_self j rest)]
        · rw [fsSave_other fs j _ k hkj,
            if_neg (fun hm => (List.mem_cons.mp hm).elim hkj hkr)]
    rw [hfun]

/-- Counterexample to C7 as stated: with default options (symlink gap files,
no verbatim reporting), emitting the frame (idx 0, next_idx 2) into an empty
directory succeeds, but running the emitter a second time over the same
directory aborts with FileExistsError instead of skipping the existing gap
file: the existence check skips only when `cfg.verbatim` is set. -/
theorem gap_fill_second_run_fails_counterexample :
    render_single_frame cfgC7 frameC7 emptyFS = .ok fsC7 ∧
    renderTwice cfgC7 frameC7 emptyFS = .error .fileExists :=
  ⟨rfl, rfl⟩

/-- C7 (amended): the emitter checks whether a file already exists at a gap
key but skips it only when `cfg.verbatim` is set; per-frame emission is
idempotent (a second run over the same frame and directory returns the same
directory contents unchanged) whenever `cfg.verbatim` or `cfg.nolinks` is
set, while in symlink mode without verbatim a second run fails with
FileExistsError. -/
theorem gap_fill_idempotent_amended :
    ∀ (cfg : Config) (f : Frame) (fs fs2 : FS),
      (cfg.verbatim = true ∨ cfg.nolinks = true) →
      render_single_frame cfg f fs = .ok fs2 →
      render_single_frame cfg f fs2 = .ok fs2 := by
  intro cfg f fs fs2 hvn h
  simp only [render_single_frame] at h ⊢
  by_cases hnext : f.next_idx ≠ 0
  · rw [if_pos hnext] at h ⊢
    obtain ⟨hpres, hall, hun⟩ := emitGaps_ok cfg f (gapKeys f) _ fs2 h
    have hidx_not_gap : f.idx ∉ gapKeys f := by
      intro hm
      simp only [gapKeys, List.mem_range'] at hm
      omega
    have hfs2idx : fs2 f.idx = some (FileContent.image f.idx) := by
      rw [hun f.idx hidx_not_gap, fsSave_self]
    rw [fsSave_id fs2 f.idx _ hfs2idx]
    by_cases hv : cfg.verbatim = true
    · exact emitGaps_verbatim_skip cfg f hv (gapKeys f) fs2 hall
    · have hv' : cfg.verbatim = false := by
        cases hval : cfg.verbatim
        · rfl
        · exact absurd hval hv
      have hn : cfg.nolinks = true := hvn.resolve_left hv
      have hchar := emitGaps_nolinks_run cfg f hv' hn (gapKeys f)
      rw [hchar _] at h
      simp only [Except.ok.injEq] at h
      rw [hchar fs2]
      have hfun : (fun k => if k ∈ gapKeys f then some (FileContent.image f.idx)
          else fs2 k) = fs2 := by
        funext k
        by_cases hk : k ∈ gapKeys f
        · have hck := congrFun h k
          simp only [hk, if_true] at hck ⊢
          exact hck
        · rw [if_neg hk]
      rw [hfun]
  · rw [if_neg hnext] at h ⊢
    simp only [Except.ok.injEq] at h
    have hidx : fs2 f.idx = some (FileContent.image f.idx) := by
      rw [← h, fsSave_self]
    rw [fsSave_id fs2 f.idx _ hidx]

/-- Witness for C7 (amended) with verbatim reporting enabled: the second run
returns the directory unchanged. -/
theorem gap_fill_idempotent_amended_witness :
    render_single_frame cfgC7v frameC7 emptyFS = .ok fsC7 ∧
    render_single_frame cfgC7v frameC7 fsC7 = .ok fsC7 :=
  ⟨rfl, gap_fill_idempotent_amended cfgC7v frameC7 emptyFS fsC7 (Or.inl rfl) rfl⟩

/-- C8: the composed canvas measures display_width*tile_width by
display_height*tile_height pixels, with HD tile dimensions exactly when HD or
fake-HD mode is set and standard dimensions otherwise; the canvas is then
resized to 1920 by 1080 for WsTelemetry, to 1280 by 720 for DjiLegacy when any
of fake-HD, HD or wide is set, to 960 by 720 otherwise, using the Lanczos
resampling filter. -/
theorem canvas_and_output_geometry :
    (∀ (cfg : Config) (t : Nat), canvasSize cfg t =
      ((displayDims cfg t).1 * tileWidth cfg,
       (displayDims cfg t).2 * tileHeight cfg)) ∧
    (∀ cfg : Config, (cfg.hd || cfg.fakehd) = true →
      tileWidth cfg = HD_TILE_WIDTH ∧ tileHeight cfg = HD_TILE_HEIGHT) ∧
    (∀ cfg : Config, (cfg.hd || cfg.fakehd) = false →
      tileWidth cfg = SD_TILE_WIDTH ∧ tileHeight cfg = SD_TILE_HEIGHT) ∧
    (∀ cfg : Config, outputSize cfg OSD_TYPE_WS = (1920, 1080)) ∧
    (∀ cfg : Config, (cfg.fakehd || cfg.hd || cfg.wide) = true →
      outputSize cfg OSD_TYPE_DJI = (1280, 720)) ∧
    (∀ cfg : Config, (cfg.fakehd || cfg.hd || cfg.wide) = false →
      outputSize cfg OSD_TYPE_DJI = (960, 720)) ∧
    resizeFilter = ResampleFilter.lanczos := by
  refine ⟨?_, ?_, ?_, ?_, ?_, ?_, rfl⟩
  · intro cfg t; rfl
  · intro cfg h
    exact ⟨by simp [tileWidth, h], by simp [tileHeight, h]⟩
  · intro cfg h
    exact ⟨by simp [tileWidth, h], by simp [tileHeight, h]⟩
  · intro cfg
    simp [outputSize, OSD_TYPE_WS, OSD_TYPE_DJI]
  · intro cfg h
    simp [outputSize, OSD_TYPE_DJI, h]
  · intro cfg h
    simp [outputSize, OSD_TYPE_DJI, h]

/-- Witness for C8 at concrete configurations: HD mode, default mode and wide
mode. -/
theorem canvas_and_output_geometry_witness :
    canvasSize { hd := true } OSD_TYPE_DJI =
      ((displayDims { hd := true } OSD_TYPE_DJI).1 * tileWidth { hd := true },
       (displayDims { hd := true } OSD_TYPE_DJI).2 * tileHeight { hd := true }) ∧
    (tileWidth { hd := true } = HD_TILE_WIDTH ∧
     tileHeight { hd := true } = HD_TILE_HEIGHT) ∧
    (tileWidth {} = SD_TILE_WIDTH ∧ tileHeight {} = SD_TILE_HEIGHT) ∧
    outputSize { wide := true } OSD_TYPE_DJI = (1280, 720) ∧
    outputSize {} OSD_TYPE_DJI = (960, 720) :=
  ⟨canvas_and_output_geometry.1 { hd := true } OSD_TYPE_DJI,
   canvas_and_output_geometry.2.1 { hd := true } rfl,
   canvas_and_output_geometry.2.2.1 {} rfl,
   canvas_and_output_geometry.2.2.2.2.1 { wide := true } rfl,
   canvas_and_output_geometry.2.2.2.2.2.1 {} rfl⟩

/-- C9: a static exclusion region is the half-open rectangle
[x1, x2) times [y1, y2): cell (x, y) is excluded exactly when
x1 <= x < x2 and y1 <= y < y2; the scenario rectangle (1,1)-(3,3) masks
exactly cells (1,1), (1,2), (2,1), (2,2) and leaves (3,3) and (0,0) unmasked;
and every excluded cell is drawn with the masking tile (blank glyph 32, or
marker glyph 88 in test mode) instead of its looked-up tile. -/
theorem exclusion_region_half_open_and_masking :
    (∀ (a : ExcludeArea) (x y : Int), a.is_excluded x y = true ↔
      (x ∈ Set.Ico a.x1 a.x2 ∧ y ∈ Set.Ico a.y1 a.y2)) ∧
    (areaC9.is_excluded 1 1 = true ∧ areaC9.is_excluded 1 2 = true ∧
     areaC9.is_excluded 2 1 = true ∧ areaC9.is_excluded 2 2 = true ∧
     areaC9.is_excluded 3 3 = false ∧ areaC9.is_excluded 0 0 = false) ∧
    (∀ (cfg : Config) (t : Nat) (f : Frame) (x y ch : Nat),
      cellTileCode cfg t f x y = some ch →
      MultiExcludedAreas.is_excluded cfg.exclude_area (x : Int) (y : Int) = true →
      ch = maskingFontNo cfg) ∧
    (∀ cfg : Config, cfg.testrun = false → maskingFontNo cfg = 32) ∧
    (∀ cfg : Config, cfg.testrun = true → maskingFontNo cfg = 88) := by
  refine ⟨?_, by decide, ?_, ?_, ?_⟩
  · intro a x y
    simp only [ExcludeArea.is_excluded, Bool.and_eq_true, decide_eq_true_eq,
      Set.mem_Ico]
  · intro cfg t f x y ch hcode hex
    simp only [cellTileCode, Option.map_eq_some'] at hcode
    obtain ⟨c, _, hch⟩ := hcode
    simp only [hex, if_true] at hch
    exact hch.symm
  · intro cfg h; simp [maskingFontNo, h]
  · intro cfg h; simp [maskingFontNo, h]

set_option maxRecDepth 8192 in
/-- Witness for C9: with the scenario rectangle installed, the tile actually
drawn at cell (1, 1) of a DJI frame whose codes are all 7 is the blank
masking glyph 32. -/
theorem exclusion_region_half_open_and_masking_witness :
    cellTileCode cfgC9 OSD_TYPE_DJI frameC9 1 1 = some 32 ∧
    (32 : Nat) = maskingFontNo cfgC9 :=
  ⟨by decide,
   exclusion_region_half_open_and_masking.2.2.1 cfgC9 OSD_TYPE_DJI frameC9 1 1 32
     (by decide) (by decide)⟩

end OsdTools
